import Mathlib

/-!
# sngrep: RTP stream correlation (src/packet/rtp.c)

A shallow embedding of the stream entity, the stream searches and the RTCP
classifier of `src/packet/rtp.c`, with the properties of the natural-language
specification stated and proved over it.

Conventions of the embedding

* A `GSequence` is a `List` in insertion order (position 0 is the begin
  iterator side, the last element is the newest).  The C loops walk a sequence
  from the end iterator backwards with `g_sequence_iter_prev`; the loop
  functions below therefore recurse over the reversed list, whose head is the
  element the iterator has just stepped back to and whose tail is what is
  still in front of the iterator.
* A `rtp_stream_t *` returned by a search is the position of the stream in the
  sequence that owns it (`StreamRef` when the call has to be named too), so
  that two streams with equal fields stay distinct, as two pointers do.
* `stream->rtpinfo.fmtcode` is the field `fmtcode`.  The back pointer
  `stream->msg` is read by none of the functions embedded here and is left
  out.
-/

namespace Sngrep

/-! ## Data model -/

/-- Address of rtp.h users: `Address` holds an ip text and a 16 bit port. -/
structure Address where
  ip : String
  port : Nat
deriving DecidableEq

/-- Modelled from the spec: `addressport_equals` lives in address.c, which is
not among the sources.  The spec: an endpoint is "compared by full equality
including port". -/
def addressport_equals (addr1 addr2 : Address) : Bool :=
  addr1.port == addr2.port && addr1.ip == addr2.ip

/-- Modelled from the spec: the packet protocol enumeration is declared in a
header that is not among the sources.  The spec: `kind` is an
"enum { RTP, RTCP, other-media }". -/
inductive PacketProtoId where
  | PACKET_RTP
  | PACKET_RTCP
  | PACKET_OTHER
deriving DecidableEq

/-- One entry of the format list of a media descriptor (numeric id, alias). -/
structure PacketSdpFormat where
  id : Nat
  alias_ : String
deriving DecidableEq

/-- The SDP media descriptor, as far as rtp.c reads it. -/
structure PacketSdpMedia where
  type : PacketProtoId
  address : Address
  formats : List PacketSdpFormat
deriving DecidableEq

/-- A time stamp as stored in `stream->time`. -/
structure timeval where
  tv_sec : Int
  tv_usec : Int
deriving DecidableEq

/-- The stream record `rtp_stream_t`. -/
structure rtp_stream_t where
  type : PacketProtoId
  media : Option PacketSdpMedia
  src : Address
  dst : Address
  fmtcode : Nat
  pktcnt : Nat
  time : timeval
  lasttm : Int
deriving DecidableEq

/-- The call record `sip_call_t`, as far as rtp.c reads it: its streams. -/
structure sip_call_t where
  streams : List rtp_stream_t
deriving DecidableEq

/-- A pointer to a stream of the call store: position of the call in
`storage_calls_vector()` and position of the stream in `call->streams`. -/
structure StreamRef where
  call : Nat
  stream : Nat
deriving DecidableEq

/-- The stream a reference points at, if it points into the store. -/
def StreamRef.deref (calls : List sip_call_t) (r : StreamRef) : Option rtp_stream_t :=
  match calls[r.call]? with
  | some c => c.streams[r.stream]?
  | none => none

/-! ## Stream lifecycle -/

/-- Source lines 57-62: `stream_complete`. -/
def stream_complete (stream : rtp_stream_t) (src : Address) : rtp_stream_t :=
  { stream with src := src }

/-- Source lines 268-272: `stream_is_complete`, a C truth value. -/
def stream_is_complete (stream : rtp_stream_t) : Nat :=
  if stream.pktcnt ≠ 0 then 1 else 0

/-! ## RTCP classifier -/

/-- Modelled from the spec: the macro `RTP_VERSION` is defined in rtp.h, which
is not among the sources.  The spec: "the RTP version bits (top 2 bits of
byte 0)". -/
def RTP_VERSION (octet : Nat) : Nat := octet >>> 6

/-- Modelled from the spec: `RTP_VERSION_RFC1889` is defined in rtp.h.  The
spec calls it "the expected version constant" and its boundary property takes
a first byte of 150 to carry it, which fixes it to 2 (the version of
RFC 1889). -/
def RTP_VERSION_RFC1889 : Nat := 2

/-- Source lines 280-294: `data_is_rtcp`.

`RTCP_HDR_LENGTH` is defined in rtp.h, which is not among the sources, and is
a parameter.  `data` is the memory the pointer refers to; reading a byte that
is not there makes the call fail (`none`).  `hdr->type` is the second byte of
the generic RTCP header.  The nested conditionals follow the left to right
short circuit of `&&`. -/
def data_is_rtcp (RTCP_HDR_LENGTH : Nat) (data : List Nat) (len : Nat) : Option Nat :=
  if len ≥ RTCP_HDR_LENGTH then
    match data[0]? with
    | none => none
    | some d0 =>
      if RTP_VERSION d0 = RTP_VERSION_RFC1889 then
        if d0 > 127 ∧ d0 < 192 then
          match data[1]? with
          | none => none
          | some type =>
            if type ≥ 192 ∧ type ≤ 223 then some 0 else some 1
        else some 1
      else some 1
  else some 1

/-! ## Stream searches -/

/-- Source lines 208-220: the loop of `rtp_find_call_stream`.  The head of
the list is the stream at the iterator, at position `older.length` of
`call->streams`. -/
def rtp_find_call_stream_loop (src dst : Address) : List rtp_stream_t → Option Nat
  | [] => none
  | stream :: older =>
    if addressport_equals dst stream.dst then
      if src.port = 0 then
        some older.length
      else if stream.pktcnt = 0 then
        some older.length
      else rtp_find_call_stream_loop src dst older
    else rtp_find_call_stream_loop src dst older

/-- Source lines 240-247: the loop of `rtp_find_call_exact_stream`. -/
def rtp_find_call_exact_stream_loop (src dst : Address) : List rtp_stream_t → Option Nat
  | [] => none
  | stream :: older =>
    if addressport_equals src stream.src && addressport_equals dst stream.dst then
      some older.length
    else rtp_find_call_exact_stream_loop src dst older

/-- Source lines 231-251: `rtp_find_call_exact_stream`. -/
def rtp_find_call_exact_stream (call : sip_call_t) (src dst : Address) : Option Nat :=
  rtp_find_call_exact_stream_loop src dst call.streams.reverse

/-- Source lines 198-229: `rtp_find_call_stream`. -/
def rtp_find_call_stream (call : sip_call_t) (src dst : Address) : Option Nat :=
  match rtp_find_call_stream_loop src dst call.streams.reverse with
  | some it => some it
  | none =>
    if src.port ≠ 0 then
      rtp_find_call_exact_stream call src dst
    else none

/-- Source lines 185-192: the loop of `rtp_find_stream` over the calls. -/
def rtp_find_stream_loop (src dst : Address) : List sip_call_t → Option StreamRef
  | [] => none
  | call :: older =>
    match rtp_find_call_stream call src dst with
    | some stream => some ⟨older.length, stream⟩
    | none => rtp_find_stream_loop src dst older

/-- Source lines 172-195: `rtp_find_stream`; `calls` is
`storage_calls_vector()`. -/
def rtp_find_stream (calls : List sip_call_t) (src dst : Address) : Option StreamRef :=
  rtp_find_stream_loop src dst calls.reverse

/-- Outcome of the inner loop of `rtp_find_stream_format`: the function has
returned a stream, or the loop ended with the current `candidate`. -/
inductive Scan where
  | returned (stream : StreamRef)
  | ended (candidate : Option StreamRef)
deriving DecidableEq

/-- Source lines 141-166: the inner loop of `rtp_find_stream_format` over the
streams of the call at position `call`. -/
def rtp_find_stream_format_streams (call : Nat) (src dst : Address) (format : Nat)
    (candidate : Option StreamRef) : List rtp_stream_t → Scan
  | [] => Scan.ended candidate
  | stream :: older =>
    if stream.type ≠ PacketProtoId.PACKET_RTP then
      rtp_find_stream_format_streams call src dst format candidate older
    else if stream_is_complete stream ≠ 0 then
      if addressport_equals stream.src src && addressport_equals stream.dst dst then
        if stream.fmtcode = format then
          Scan.returned ⟨call, older.length⟩
        else
          rtp_find_stream_format_streams call src dst format (some ⟨call, older.length⟩) older
      else rtp_find_stream_format_streams call src dst format candidate older
    else
      if addressport_equals stream.dst dst then
        Scan.returned ⟨call, older.length⟩
      else rtp_find_stream_format_streams call src dst format candidate older

/-- Source lines 137-167: the outer loop of `rtp_find_stream_format` over the
calls, and the final `return candidate`. -/
def rtp_find_stream_format_calls (src dst : Address) (format : Nat)
    (candidate : Option StreamRef) : List sip_call_t → Option StreamRef
  | [] => candidate
  | call :: older =>
    match rtp_find_stream_format_streams older.length src dst format candidate
        call.streams.reverse with
    | Scan.returned stream => some stream
    | Scan.ended candidate2 => rtp_find_stream_format_calls src dst format candidate2 older

/-- Source lines 120-170: `rtp_find_stream_format`; `calls` is
`storage_calls_vector()`. -/
def rtp_find_stream_format (calls : List sip_call_t) (src dst : Address) (format : Nat) :
    Option StreamRef :=
  rtp_find_stream_format_calls src dst format none calls.reverse

/-! ## Vocabulary of the specification -/

/-- The element at position `i` of `l` satisfies `p` and no later (newer)
element does: position `i` holds the newest element of `l` with `p`. -/
def IsNewest {α : Type} (p : α → Prop) (l : List α) (i : Nat) : Prop :=
  ∃ pre x post, l = pre ++ x :: post ∧ pre.length = i ∧ p x ∧ ∀ y ∈ post, ¬ p y

/-- A backwards scan that stops at the first element with `q`, shared shape
of the two per-call loops. -/
def scanNewest {α : Type} (q : α → Bool) : List α → Option Nat
  | [] => none
  | x :: older => if q x then some older.length else scanNewest q older

/-- The elements of a sequence with their positions, last (newest) first. -/
def newestFirst {α : Type} (l : List α) : List (Nat × α) := l.enum.reverse

/-- The streams of the call at position `call`, each with its reference,
last (newest) first. -/
def call_scan_order (call : Nat) (streams : List rtp_stream_t) :
    List (StreamRef × rtp_stream_t) :=
  (newestFirst streams).map (fun s => (⟨call, s.1⟩, s.2))

/-- The scan order of the specification: calls from last to first and, inside
each call, streams from last to first. -/
def scan_order (calls : List sip_call_t) : List (StreamRef × rtp_stream_t) :=
  (newestFirst calls).flatMap (fun c => call_scan_order c.1 c.2.streams)

/-- The stream has kind RTP. -/
def is_rtp (s : rtp_stream_t) : Bool := decide (s.type = PacketProtoId.PACKET_RTP)

/-- The stream is returned as soon as it is scanned: incomplete with
destination `dst`, or complete with source `src`, destination `dst` and
format code `format`. -/
def immediate_match (src dst : Address) (format : Nat) (s : rtp_stream_t) : Bool :=
  (decide (s.pktcnt = 0) && decide (s.dst = dst)) ||
  (decide (s.pktcnt ≠ 0) && decide (s.src = src) && decide (s.dst = dst) &&
    decide (s.fmtcode = format))

/-- The stream is complete with source `src` and destination `dst`. -/
def fallback_match (src dst : Address) (s : rtp_stream_t) : Bool :=
  decide (s.pktcnt ≠ 0) && decide (s.src = src) && decide (s.dst = dst)

/-- What the specification says about a stretch `scanned` of the scan order,
entered with the fallback `candidate`: the first RTP stream that matches
immediately is returned; otherwise the stretch ends with the last scanned RTP
stream that is a fallback match, or with `candidate` when there is none. -/
def scan_spec (src dst : Address) (format : Nat) (candidate : Option StreamRef)
    (scanned : List (StreamRef × rtp_stream_t)) : Scan :=
  match (scanned.filter (fun e => is_rtp e.2)).find?
      (fun e => immediate_match src dst format e.2) with
  | some e => Scan.returned e.1
  | none =>
    Scan.ended ((((scanned.filter (fun e => is_rtp e.2)).filter
      (fun e => fallback_match src dst e.2)).getLast?.map Prod.fst).or candidate)

/-- The result of `rtp_find_stream_format` in the words of the specification:
over the RTP streams in scan order, the first one that matches immediately;
when there is none, the last scanned complete one with source `src` and
destination `dst`, or none. -/
def rtp_find_stream_format_spec (calls : List sip_call_t) (src dst : Address) (format : Nat) :
    Option StreamRef :=
  match ((scan_order calls).filter (fun e => is_rtp e.2)).find?
      (fun e => immediate_match src dst format e.2) with
  | some e => some e.1
  | none =>
    (((scan_order calls).filter (fun e => is_rtp e.2)).filter
      (fun e => fallback_match src dst e.2)).getLast?.map Prod.fst

/-- In the first call (from the front of the store) that has a complete RTP
stream with source `src` and destination `dst`, the first (oldest) such
stream. -/
def oldest_fallback (calls : List sip_call_t) (src dst : Address) : Option StreamRef :=
  calls.enum.findSome? (fun c =>
    (c.2.streams.findIdx? (fun s => is_rtp s && fallback_match src dst s)).map
      (fun i => (⟨c.1, i⟩ : StreamRef)))

/-- The fallback in the words of the specification, "the most recent
ambiguous match": in the last (most recently touched) call of the store that
has a complete RTP stream with source `src` and destination `dst`, the last
(newest) such stream. -/
def newest_fallback (calls : List sip_call_t) (src dst : Address) : Option StreamRef :=
  (newestFirst calls).findSome? (fun c =>
    ((newestFirst c.2.streams).find? (fun s => is_rtp s.2 && fallback_match src dst s.2)).map
      (fun s => (⟨c.1, s.1⟩ : StreamRef)))

/-! ## Sample data -/

/-- Endpoint A:5000 of the end-to-end scenario. -/
def addrA : Address := ⟨"10.0.0.1", 5000⟩

/-- Endpoint B:6000 of the end-to-end scenario. -/
def addrB : Address := ⟨"10.0.0.2", 6000⟩

/-- Endpoint C:7000 of the end-to-end scenario. -/
def addrC : Address := ⟨"10.0.0.3", 7000⟩

/-- An endpoint whose port is the wildcard 0. -/
def addrWild : Address := ⟨"10.0.0.2", 0⟩

/-- A fresh RTP stream towards `dst`: no source, no packet yet. -/
def sampleIncomplete (dst : Address) : rtp_stream_t :=
  { type := PacketProtoId.PACKET_RTP, media := none, src := ⟨"", 0⟩, dst := dst,
    fmtcode := 0, pktcnt := 0, time := ⟨0, 0⟩, lasttm := 0 }

/-- An RTP stream from `src` to `dst` with format `fmt` that has seen
`pktcnt` packets. -/
def sampleStream (src dst : Address) (fmt pktcnt : Nat) : rtp_stream_t :=
  { type := PacketProtoId.PACKET_RTP, media := none, src := src, dst := dst,
    fmtcode := fmt, pktcnt := pktcnt, time := ⟨100, 0⟩, lasttm := 100 }

/-- Two calls: the format-exact stream (format 8) is in the first call and is
scanned last, the stream with another format (0) is in the last call and is
scanned first; both go from B:6000 to A:5000. -/
def storeExactLast : List sip_call_t :=
  [⟨[sampleStream addrB addrA 8 3]⟩, ⟨[sampleStream addrB addrA 0 3]⟩]

/-- Two calls with one complete stream each, both towards A:5000: the one with
format 8 comes from C:7000, the one with format 0 from B:6000. -/
def storeOtherSource : List sip_call_t :=
  [⟨[sampleStream addrC addrA 8 3]⟩, ⟨[sampleStream addrB addrA 0 3]⟩]

/-- The store `storeExactLast` followed by a call with a fresh stream towards
A:5000. -/
def storeWithIncomplete : List sip_call_t :=
  [⟨[sampleStream addrB addrA 8 3]⟩, ⟨[sampleStream addrB addrA 0 3]⟩,
    ⟨[sampleIncomplete addrA]⟩]

/-- Two calls with two complete streams each, all four from B:6000 to A:5000
with format 0. -/
def storeFallbacks : List sip_call_t :=
  [⟨[sampleStream addrB addrA 0 3, sampleStream addrB addrA 0 5]⟩,
   ⟨[sampleStream addrB addrA 0 7, sampleStream addrB addrA 0 9]⟩]

/-! ## Packet accounting and ordering -/

/-- Modelled from the spec: the packet type and `packet_time` are declared
outside these sources.  The spec: a parsed packet exposes "a capture
timestamp", the `observed_time` of `record_packet`. -/
structure packet_t where
  time : timeval
deriving DecidableEq

/-- Modelled from the spec: `packet_time` returns the capture timestamp of the
packet. -/
def packet_time (packet : packet_t) : timeval := packet.time

/-- The conversion `(int) x` of a `time_t` value to a 32 bit signed int, by
two's complement wrap. -/
def to_int (x : Int) : Int := (x + 2 ^ 31) % 2 ^ 32 - 2 ^ 31

/-- Source lines 70-78: `stream_add_packet`.  `now` is the value `time(NULL)`
returns during the call.  `pktcnt` is a 32 bit unsigned field (it is what
`stream_get_count` returns as `uint32_t`), so the increment wraps. -/
def stream_add_packet (stream : rtp_stream_t) (packet : packet_t) (now : Int) : rtp_stream_t :=
  let stream1 :=
    if stream.pktcnt = 0 then { stream with time := packet_time packet } else stream
  let stream2 := { stream1 with lasttm := to_int now }
  { stream2 with pktcnt := (stream2.pktcnt + 1) % 2 ^ 32 }

/-- Source lines 80-84: `stream_get_count`. -/
def stream_get_count (stream : rtp_stream_t) : Nat := stream.pktcnt

/-- Successive calls of `stream_add_packet`, one for each pair of a packet and
the clock reading during its call. -/
def add_packets (stream : rtp_stream_t) (calls : List (packet_t × Int)) : rtp_stream_t :=
  calls.foldl (fun s c => stream_add_packet s c.1 c.2) stream

/-- The values of `stream->lasttm` stored by successive calls of
`stream_add_packet`, in call order. -/
def lasttm_after (stream : rtp_stream_t) : List (packet_t × Int) → List Int
  | [] => []
  | c :: rest =>
    (stream_add_packet stream c.1 c.2).lasttm ::
      lasttm_after (stream_add_packet stream c.1 c.2) rest

/-- Order of time stamps: seconds first, then microseconds. -/
def timeval_le (a b : timeval) : Bool :=
  decide (a.tv_sec < b.tv_sec ∨ (a.tv_sec = b.tv_sec ∧ a.tv_usec ≤ b.tv_usec))

/-- Source lines 253-266: `stream_is_older`.  A stream pointer is an address,
`none` being NULL, and `heap` gives the stream stored at an address.
`timeval_is_older` is declared outside these sources and is a parameter.
Reading `one->time` through a NULL pointer makes the call fail (`none`). -/
def stream_is_older (timeval_is_older : timeval → timeval → Int) (heap : Nat → rtp_stream_t)
    (one two : Option Nat) : Option Int :=
  match two with
  | none => some 1
  | some t =>
    if one = some t then some 0
    else
      match one with
      | none => none
      | some o => some (timeval_is_older (heap o).time (heap t).time)

/-- A packet captured at second `sec`. -/
def samplePacket (sec : Int) : packet_t := ⟨⟨sec, 0⟩⟩

/-- A heap holding a stream first seen at second 10 at address 1 and a stream
first seen at second 20 everywhere else. -/
def sampleHeap (addr : Nat) : rtp_stream_t :=
  if addr = 1 then { sampleIncomplete addrA with time := ⟨10, 0⟩ }
  else { sampleIncomplete addrA with time := ⟨20, 0⟩ }

/-! ## Format label and creation -/

/-- Entry of the built-in table of standard codecs; `format` is the name
`stream_get_format` returns.  The table is declared outside these sources. -/
structure PacketRtpEncoding where
  id : Nat
  format : String
deriving DecidableEq

/-- Source lines 109-114: the loop of `stream_get_format` over
`stream->media->formats`, from the first entry on. -/
def stream_get_format_loop (fmtcode : Nat) : List PacketSdpFormat → Option String
  | [] => none
  | format :: rest =>
    if format.id = fmtcode then some format.alias_
    else stream_get_format_loop fmtcode rest

/-- Source lines 93-118: `stream_get_format`.  The lookup
`packet_rtp_standard_codec` in the built-in table is declared outside these
sources and is a parameter.  `none` for the stream is the NULL pointer, `none`
as result is NULL. -/
def stream_get_format (packet_rtp_standard_codec : Nat → Option PacketRtpEncoding)
    (stream : Option rtp_stream_t) : Option String :=
  match stream with
  | none => none
  | some stream =>
    match stream.media with
    | none => none
    | some media =>
      match packet_rtp_standard_codec stream.fmtcode with
      | some encoding => some encoding.format
      | none => stream_get_format_loop stream.fmtcode media.formats

/-- A block of `sizeof(rtp_stream_t)` zero bytes: NULL media, empty addresses,
counters and times 0.  The `type` of the block is overwritten by
`stream_create` before anything reads it. -/
def zero_stream : rtp_stream_t :=
  { type := PacketProtoId.PACKET_OTHER, media := none, src := ⟨"", 0⟩, dst := ⟨"", 0⟩,
    fmtcode := 0, pktcnt := 0, time := ⟨0, 0⟩, lasttm := 0 }

/-- Modelled from the spec: `sng_malloc` is defined outside these sources.
The spec: creation leaves "`source` unset, `format_code` unset,
`packet_count = 0`" and "fails only on allocation failure": the allocator
returns NULL or a zero filled block. -/
def sng_malloc (succeeds : Bool) : Option rtp_stream_t :=
  if succeeds then some zero_stream else none

/-- Source lines 40-55: `stream_create`.  `succeeds` tells whether the
allocation succeeds; the argument `packet` is not read by the function. -/
def stream_create (succeeds : Bool) (media : PacketSdpMedia) : Option rtp_stream_t :=
  match sng_malloc succeeds with
  | none => none
  | some stream =>
    some { stream with type := media.type, media := some media, dst := media.address }

/-- A two entry table of standard codecs: 0 is PCMU, 8 is PCMA. -/
def sampleCodecs (code : Nat) : Option PacketRtpEncoding :=
  if code = 0 then some ⟨0, "PCMU"⟩ else if code = 8 then some ⟨8, "PCMA"⟩ else none

/-- A media descriptor towards A:5000 offering 8 under the alias G711A and 101
under the alias telephone-event, twice. -/
def sampleMedia : PacketSdpMedia :=
  { type := PacketProtoId.PACKET_RTP, address := addrA,
    formats := [⟨8, "G711A"⟩, ⟨101, "telephone-event"⟩, ⟨101, "dtmf"⟩] }

/-- One call whose only stream is a fresh RTCP stream towards A:5000. -/
def storeRtcpOnly : List sip_call_t :=
  [⟨[{ sampleIncomplete addrA with type := PacketProtoId.PACKET_RTCP }]⟩]

/-! ## Dialog layout (src/tui/widgets/dialog.c) -/

/-- The dialog types.  dialog.h is not among the sources: `SNG_DIALOG_OTHER`
is the enumerator dialog.c names, `SNG_DIALOG_KIND` stands for every other
enumerator. -/
inductive SngDialogType where
  | SNG_DIALOG_OTHER
  | SNG_DIALOG_KIND (id : Nat)
deriving DecidableEq

/-- The button sets.  dialog.h is not among the sources: the enumerators
dialog.c names, and `SNG_BUTTONS_KIND` for every other enumerator. -/
inductive SngDialogButtons where
  | SNG_BUTTONS_NONE
  | SNG_BUTTONS_YES_NO
  | SNG_BUTTONS_OK_CANCEL
  | SNG_BUTTONS_KIND (id : Nat)
deriving DecidableEq

/-- The fields of `SngDialog` that `sng_dialog_constructed` reads, apart from
the message, which enters as its lines. -/
structure SngDialog where
  type : SngDialogType
  buttons : SngDialogButtons
  title : Option String
deriving DecidableEq

/-- The padding of a box, four signed integers. -/
structure SngBoxPadding where
  top : Int
  bottom : Int
  left : Int
  right : Int
deriving DecidableEq

/-- The numbers `sng_dialog_constructed` hands to the widgets: height and
width of the dialog, padding of the dialog box, padding of the button box. -/
structure DialogLayout where
  height : Int
  width : Int
  padding : SngBoxPadding
  box_buttons_padding : SngBoxPadding
deriving DecidableEq

/-- The glib macro `MAX(a, b)`, that is `((a) > (b)) ? (a) : (b)`. -/
def MAX (a b : Int) : Int := if a > b then a else b

/-- Source lines 165-172: the local variable `width` of
`sng_dialog_constructed` before the dialog width is clamped. -/
def sng_dialog_message_width (sng_label_get_text_len : String → Int) (dialog : SngDialog)
    (msg_lines : List String) : Int :=
  let width := msg_lines.foldl (fun width line => MAX width (sng_label_get_text_len line)) 0
  if dialog.type ≠ SngDialogType.SNG_DIALOG_OTHER then width + 5 else width

/-- Source lines 147-231: the layout computed by `sng_dialog_constructed`.
`msg_lines` are the lines `g_strsplit(dialog->message, "\n", -1)` returns.
`SNG_DIALOG_MIN_HEIGHT`, `SNG_DIALOG_MIN_WIDTH` and `sng_label_get_text_len`
are declared outside these sources and are parameters, and so is the padding
`sng_box_get_padding` returns for the new button box.  The `gint` values are
integers: text lengths stay far below 2^31. -/
def sng_dialog_constructed (SNG_DIALOG_MIN_HEIGHT SNG_DIALOG_MIN_WIDTH : Int)
    (sng_label_get_text_len : String → Int) (box_buttons_padding : SngBoxPadding)
    (dialog : SngDialog) (msg_lines : List String) : DialogLayout :=
  let height : Int :=
    (msg_lines.length : Int) + 2 + 2 + (if dialog.title ≠ none then 2 else 0)
  let width := sng_dialog_message_width sng_label_get_text_len dialog msg_lines
  { height := MAX height SNG_DIALOG_MIN_HEIGHT,
    width := MAX width SNG_DIALOG_MIN_WIDTH,
    padding := ⟨1, 1, 1, 1⟩,
    box_buttons_padding :=
      match dialog.buttons with
      | SngDialogButtons.SNG_BUTTONS_YES_NO =>
        { box_buttons_padding with
          left := Int.tdiv (width - 12 * 2 - 1) 2, right := Int.tdiv (width - 12 * 2 - 1) 2 }
      | SngDialogButtons.SNG_BUTTONS_OK_CANCEL =>
        { box_buttons_padding with
          left := Int.tdiv (width - 12 * 2 - 1) 2, right := Int.tdiv (width - 12 * 2 - 1) 2 }
      | _ => box_buttons_padding }

/-- The length of the longest message line (0 when there is no line). -/
def longest_line (text_len : String → Int) (msg_lines : List String) : Int :=
  (msg_lines.map text_len).foldr max 0

/-- The width `w` of the claim: the length of the longest message line, plus
5 when the dialog type is not `SNG_DIALOG_OTHER`. -/
def dialog_w (text_len : String → Int) (dialog : SngDialog) (msg_lines : List String) : Int :=
  longest_line text_len msg_lines +
    (if dialog.type ≠ SngDialogType.SNG_DIALOG_OTHER then 5 else 0)

/-- The text length of a line without markup: its number of characters. -/
def sampleTextLen (line : String) : Int := (line.length : Int)

/-- A yes/no question dialog. -/
def sampleDialog : SngDialog :=
  { type := SngDialogType.SNG_DIALOG_KIND 1, buttons := SngDialogButtons.SNG_BUTTONS_YES_NO,
    title := some "Confirm" }

/-! ## RTCP classifier with one test removed -/

/-- The classifier `data_is_rtcp` (source lines 280-294) with its version
test `RTP_VERSION(*data) == RTP_VERSION_RFC1889` removed; the three other
tests are kept in their order. -/
def data_is_rtcp_without_version (RTCP_HDR_LENGTH : Nat) (data : List Nat) (len : Nat) :
    Option Nat :=
  if len ≥ RTCP_HDR_LENGTH then
    match data[0]? with
    | none => none
    | some d0 =>
      if d0 > 127 ∧ d0 < 192 then
        match data[1]? with
        | none => none
        | some type =>
          if type ≥ 192 ∧ type ≤ 223 then some 0 else some 1
      else some 1
  else some 1

/-- The classifier `data_is_rtcp` (source lines 280-294) with its range test
`data[0] > 127 && data[0] < 192` removed; the three other tests are kept in
their order. -/
def data_is_rtcp_without_range (RTCP_HDR_LENGTH : Nat) (data : List Nat) (len : Nat) :
    Option Nat :=
  if len ≥ RTCP_HDR_LENGTH then
    match data[0]? with
    | none => none
    | some d0 =>
      if RTP_VERSION d0 = RTP_VERSION_RFC1889 then
        match data[1]? with
        | none => none
        | some type =>
          if type ≥ 192 ∧ type ≤ 223 then some 0 else some 1
      else some 1
  else some 1

/-! ## RTCP classifier: properties -/

/-- Claim C1: for a buffer that holds the `len` bytes announced and a header
length covering the two bytes read, `data_is_rtcp` returns 0 exactly when the
length reaches the header length, the top two bits of byte 0 are the version
constant, byte 0 is strictly between 127 and 192 and byte 1 is in [192, 223];
otherwise it returns 1.  A minimum-length buffer starting 150, 200 is RTCP and
the same buffer with second byte 100 is not. -/
theorem data_is_rtcp_iff (RTCP_HDR_LENGTH : Nat) (data : List Nat) (len : Nat)
    (hhdr : 2 ≤ RTCP_HDR_LENGTH) (hlen : len ≤ data.length) :
    (data_is_rtcp RTCP_HDR_LENGTH data len = some 0 ↔
      (RTCP_HDR_LENGTH ≤ len ∧ data.getD 0 0 / 64 = RTP_VERSION_RFC1889 ∧
        127 < data.getD 0 0 ∧ data.getD 0 0 < 192 ∧
        192 ≤ data.getD 1 0 ∧ data.getD 1 0 ≤ 223)) ∧
    (¬ (RTCP_HDR_LENGTH ≤ len ∧ data.getD 0 0 / 64 = RTP_VERSION_RFC1889 ∧
        127 < data.getD 0 0 ∧ data.getD 0 0 < 192 ∧
        192 ≤ data.getD 1 0 ∧ data.getD 1 0 ≤ 223) →
      data_is_rtcp RTCP_HDR_LENGTH data len = some 1) ∧
    (∀ rest : List Nat, rest.length + 2 = RTCP_HDR_LENGTH →
      data_is_rtcp RTCP_HDR_LENGTH (150 :: 200 :: rest) RTCP_HDR_LENGTH = some 0 ∧
      data_is_rtcp RTCP_HDR_LENGTH (150 :: 100 :: rest) RTCP_HDR_LENGTH = some 1) := by
  refine ⟨?_, ?_, ?_⟩
  · unfold data_is_rtcp RTP_VERSION RTP_VERSION_RFC1889
    by_cases hl : RTCP_HDR_LENGTH ≤ len
    · match data, hlen with
      | [], h => simp only [List.length_nil] at h; omega
      | [_], h => simp only [List.length_singleton] at h; omega
      | d0 :: d1 :: rest, _ =>
        simp only [ge_iff_le, hl, if_true, List.getElem?_cons_zero, List.getElem?_cons_succ,
          List.getD_cons_zero, List.getD_cons_succ, Nat.shiftRight_eq_div_pow, true_and]
        norm_num
        split_ifs <;> simp_all
    · simp [hl]
  · unfold data_is_rtcp RTP_VERSION RTP_VERSION_RFC1889
    by_cases hl : RTCP_HDR_LENGTH ≤ len
    · match data, hlen with
      | [], h => simp only [List.length_nil] at h; omega
      | [_], h => simp only [List.length_singleton] at h; omega
      | d0 :: d1 :: rest, _ =>
        simp only [ge_iff_le, hl, if_true, List.getElem?_cons_zero, List.getElem?_cons_succ,
          List.getD_cons_zero, List.getD_cons_succ, Nat.shiftRight_eq_div_pow, true_and]
        norm_num
    · simp [hl]
  · intro rest _
    constructor <;> simp [data_is_rtcp, RTP_VERSION, RTP_VERSION_RFC1889, Nat.shiftRight_eq_div_pow]

/-- Claim C2: when the length is below the header length, `data_is_rtcp`
returns 1 whatever the memory holds, and it does so even when no byte at all
can be read (any read of the empty memory would fail): the length test short
circuits every byte access. -/
theorem data_is_rtcp_short (RTCP_HDR_LENGTH : Nat) (data : List Nat) (len : Nat)
    (hshort : len < RTCP_HDR_LENGTH) :
    data_is_rtcp RTCP_HDR_LENGTH data len = some 1 ∧
    data_is_rtcp RTCP_HDR_LENGTH [] len = some 1 := by
  have hl : ¬ (len ≥ RTCP_HDR_LENGTH) := by omega
  constructor <;> simp [data_is_rtcp, hl]

/-! ## Backwards scans -/

theorem addressport_equals_iff (a b : Address) : addressport_equals a b = true ↔ a = b := by
  cases a; cases b
  simp only [addressport_equals, Bool.and_eq_true, beq_iff_eq, Address.mk.injEq]
  exact and_comm

theorem isNewest_concat {α : Type} (p : α → Prop) (l : List α) (a : α) (i : Nat) :
    IsNewest p (l ++ [a]) i ↔ (p a ∧ i = l.length) ∨ (¬ p a ∧ IsNewest p l i) := by
  constructor
  · rintro ⟨pre, x, post, h, rfl, hx, hpost⟩
    rcases List.eq_nil_or_concat post with rfl | ⟨post2, b, rfl⟩
    · obtain ⟨h1, h2⟩ := List.append_inj' h rfl
      simp only [List.cons.injEq, and_true] at h2
      subst h1 h2
      exact Or.inl ⟨hx, rfl⟩
    · rw [List.concat_eq_append] at h hpost
      have h3 : l ++ [a] = (pre ++ x :: post2) ++ [b] := by simpa using h
      obtain ⟨h1, h2⟩ := List.append_inj' h3 rfl
      simp only [List.cons.injEq, and_true] at h2
      subst h2
      refine Or.inr ⟨hpost a (by simp), pre, x, post2, h1, rfl, hx, ?_⟩
      intro y hy
      exact hpost y (by simp [hy])
  · rintro (⟨ha, rfl⟩ | ⟨hna, pre, x, post, rfl, rfl, hx, hpost⟩)
    · exact ⟨l, a, [], rfl, rfl, ha, by simp⟩
    · refine ⟨pre, x, post ++ [a], by simp, rfl, hx, ?_⟩
      intro y hy
      rcases List.mem_append.mp hy with h | h
      · exact hpost y h
      · simp only [List.mem_singleton] at h
        subst h
        exact hna

theorem isNewest_nil {α : Type} (p : α → Prop) (i : Nat) : ¬ IsNewest p ([] : List α) i := by
  rintro ⟨pre, x, post, h, -⟩
  simp at h

theorem scanNewest_some {α : Type} (q : α → Bool) (p : α → Prop)
    (hq : ∀ x, q x = true ↔ p x) (l : List α) (i : Nat) :
    scanNewest q l.reverse = some i ↔ IsNewest p l i := by
  induction l using List.reverseRecOn with
  | nil => simp [scanNewest, isNewest_nil]
  | append_singleton l a ih =>
    have hrev : (l ++ [a]).reverse = a :: l.reverse := by simp
    rw [hrev, isNewest_concat]
    simp only [scanNewest, List.length_reverse]
    by_cases h : q a = true
    · have hp : p a := (hq a).mp h
      simp only [h, if_true, Option.some.injEq, hp, true_and, not_true_eq_false, false_and,
        or_false]
      exact eq_comm
    · have hp : ¬ p a := fun hp => h ((hq a).mpr hp)
      simp only [h, Bool.false_eq_true, if_false, hp, false_and, not_false_eq_true, true_and,
        false_or]
      exact ih

theorem scanNewest_none {α : Type} (q : α → Bool) (p : α → Prop)
    (hq : ∀ x, q x = true ↔ p x) (l : List α) :
    scanNewest q l.reverse = none ↔ ∀ x ∈ l, ¬ p x := by
  induction l using List.reverseRecOn with
  | nil => simp [scanNewest]
  | append_singleton l a ih =>
    have hrev : (l ++ [a]).reverse = a :: l.reverse := by simp
    rw [hrev]
    simp only [scanNewest, List.mem_append, List.mem_singleton]
    by_cases h : q a = true
    · have hp : p a := (hq a).mp h
      simp only [h, if_true, reduceCtorEq, false_iff, not_forall]
      exact ⟨a, Or.inr rfl, fun hn => hn hp⟩
    · have hp : ¬ p a := fun hp => h ((hq a).mpr hp)
      simp only [h, Bool.false_eq_true, if_false, ih]
      constructor
      · rintro hl x (hx | rfl)
        · exact hl x hx
        · exact hp
      · intro hl x hx
        exact hl x (Or.inl hx)

theorem rtp_find_call_stream_loop_eq (src dst : Address) (l : List rtp_stream_t) :
    rtp_find_call_stream_loop src dst l =
      scanNewest (fun s => addressport_equals dst s.dst &&
        (decide (src.port = 0) || decide (s.pktcnt = 0))) l := by
  induction l with
  | nil => rfl
  | cons s older ih =>
    simp only [rtp_find_call_stream_loop, scanNewest, ih]
    by_cases h1 : addressport_equals dst s.dst = true <;>
      by_cases h2 : src.port = 0 <;> by_cases h3 : s.pktcnt = 0 <;> simp [h1, h2, h3]

theorem rtp_find_call_exact_stream_loop_eq (src dst : Address) (l : List rtp_stream_t) :
    rtp_find_call_exact_stream_loop src dst l =
      scanNewest (fun s => addressport_equals src s.src && addressport_equals dst s.dst) l := by
  induction l with
  | nil => rfl
  | cons s older ih =>
    simp only [rtp_find_call_exact_stream_loop, scanNewest, ih]

/-! ## Search inside one call -/

theorem rtp_find_call_stream_unfold (call : sip_call_t) (src dst : Address) :
    rtp_find_call_stream call src dst =
      match scanNewest (fun s => addressport_equals dst s.dst &&
          (decide (src.port = 0) || decide (s.pktcnt = 0))) call.streams.reverse with
      | some it => some it
      | none =>
        if src.port ≠ 0 then
          scanNewest (fun s => addressport_equals src s.src && addressport_equals dst s.dst)
            call.streams.reverse
        else none := by
  simp only [rtp_find_call_stream, rtp_find_call_exact_stream, rtp_find_call_stream_loop_eq,
    rtp_find_call_exact_stream_loop_eq]

theorem exact_pred_iff (src dst : Address) (s : rtp_stream_t) :
    (addressport_equals src s.src && addressport_equals dst s.dst) = true ↔
      (s.src = src ∧ s.dst = dst) := by
  simp only [Bool.and_eq_true, addressport_equals_iff]
  constructor
  · rintro ⟨h1, h2⟩
    exact ⟨h1.symm, h2.symm⟩
  · rintro ⟨h1, h2⟩
    exact ⟨h1.symm, h2.symm⟩

theorem incomplete_pred_iff (src dst : Address) (hport : src.port ≠ 0) (s : rtp_stream_t) :
    (addressport_equals dst s.dst && (decide (src.port = 0) || decide (s.pktcnt = 0))) = true ↔
      (s.dst = dst ∧ s.pktcnt = 0) := by
  simp only [Bool.and_eq_true, addressport_equals_iff, Bool.or_eq_true, decide_eq_true_eq, hport,
    false_or]
  constructor
  · rintro ⟨h1, h2⟩
    exact ⟨h1.symm, h2⟩
  · rintro ⟨h1, h2⟩
    exact ⟨h1.symm, h2⟩

theorem wildcard_pred_iff (src dst : Address) (hport : src.port = 0) (s : rtp_stream_t) :
    (addressport_equals dst s.dst && (decide (src.port = 0) || decide (s.pktcnt = 0))) = true ↔
      s.dst = dst := by
  simp only [Bool.and_eq_true, addressport_equals_iff, Bool.or_eq_true, decide_eq_true_eq, hport,
    true_or, and_true]
  exact eq_comm

/-- Claim C3: with a non-zero source port, `rtp_find_call_stream` returns the
newest stream of the call with destination `dst` and packet count 0 when there
is one; otherwise the newest stream with source `src` and destination `dst`;
otherwise none.  An older incomplete stream with the destination is preferred
over a newer complete stream matching source and destination. -/
theorem rtp_find_call_stream_with_port (call : sip_call_t) (src dst : Address)
    (hport : src.port ≠ 0) :
    (∀ i, rtp_find_call_stream call src dst = some i ↔
      (IsNewest (fun s => s.dst = dst ∧ s.pktcnt = 0) call.streams i ∨
        ((∀ s ∈ call.streams, ¬ (s.dst = dst ∧ s.pktcnt = 0)) ∧
          IsNewest (fun s => s.src = src ∧ s.dst = dst) call.streams i))) ∧
    (rtp_find_call_stream call src dst = none ↔
      ((∀ s ∈ call.streams, ¬ (s.dst = dst ∧ s.pktcnt = 0)) ∧
        (∀ s ∈ call.streams, ¬ (s.src = src ∧ s.dst = dst)))) ∧
    (∀ pre s1 mid s2 post, call.streams = pre ++ s1 :: (mid ++ s2 :: post) →
      s1.dst = dst → s1.pktcnt = 0 →
      s2.src = src → s2.dst = dst → s2.pktcnt ≠ 0 →
      (∀ s ∈ mid ++ post, ¬ (s.dst = dst ∧ s.pktcnt = 0)) →
        rtp_find_call_stream call src dst = some pre.length) := by
  have hsome := scanNewest_some _ _ (incomplete_pred_iff src dst hport) call.streams
  have hnone := scanNewest_none _ _ (incomplete_pred_iff src dst hport) call.streams
  have esome := scanNewest_some _ _ (exact_pred_iff src dst) call.streams
  have enone := scanNewest_none _ _ (exact_pred_iff src dst) call.streams
  have first : ∀ i, IsNewest (fun s => s.dst = dst ∧ s.pktcnt = 0) call.streams i →
      rtp_find_call_stream call src dst = some i := by
    intro i hi
    rw [rtp_find_call_stream_unfold, (hsome i).mpr hi]
  have second : (∀ s ∈ call.streams, ¬ (s.dst = dst ∧ s.pktcnt = 0)) →
      rtp_find_call_stream call src dst =
        scanNewest (fun s => addressport_equals src s.src && addressport_equals dst s.dst)
          call.streams.reverse := by
    intro hno
    rw [rtp_find_call_stream_unfold, hnone.mpr hno]
    simp only [ne_eq, hport, not_false_eq_true, if_true]
  refine ⟨?_, ?_, ?_⟩
  · intro i
    constructor
    · intro hres
      cases hscan : scanNewest (fun s => addressport_equals dst s.dst &&
          (decide (src.port = 0) || decide (s.pktcnt = 0))) call.streams.reverse with
      | some it =>
        rw [rtp_find_call_stream_unfold, hscan] at hres
        simp only [Option.some.injEq] at hres
        subst hres
        exact Or.inl ((hsome it).mp hscan)
      | none =>
        have hno := hnone.mp hscan
        rw [second hno] at hres
        exact Or.inr ⟨hno, (esome i).mp hres⟩
    · rintro (hi | ⟨hno, hi⟩)
      · exact first i hi
      · rw [second hno]
        exact (esome i).mpr hi
  · constructor
    · intro hres
      cases hscan : scanNewest (fun s => addressport_equals dst s.dst &&
          (decide (src.port = 0) || decide (s.pktcnt = 0))) call.streams.reverse with
      | some it =>
        rw [rtp_find_call_stream_unfold, hscan] at hres
        simp at hres
      | none =>
        have hno := hnone.mp hscan
        rw [second hno] at hres
        exact ⟨hno, enone.mp hres⟩
    · rintro ⟨hno, hnex⟩
      rw [second hno]
      exact enone.mpr hnex
  · intro pre s1 mid s2 post hstreams hd1 hc1 _ hd2 hc2 hrest
    refine first pre.length ⟨pre, s1, mid ++ s2 :: post, hstreams, rfl, ⟨hd1, hc1⟩, ?_⟩
    intro y hy
    rcases List.mem_append.mp hy with h | h
    · exact hrest y (List.mem_append.mpr (Or.inl h))
    · rcases List.mem_cons.mp h with h | h
      · subst h
        exact fun hh => hc2 hh.2
      · exact hrest y (List.mem_append.mpr (Or.inr h))

/-- Instance of C3: an older incomplete stream towards A:5000 wins over a
newer complete stream from B:6000 to A:5000, for a packet from B:6000. -/
theorem rtp_find_call_stream_with_port_witness :
    addrB.port ≠ 0 ∧
    rtp_find_call_stream ⟨[sampleIncomplete addrA, sampleStream addrB addrA 8 3]⟩ addrB addrA
      = some 0 :=
  ⟨by decide,
   (rtp_find_call_stream_with_port ⟨[sampleIncomplete addrA, sampleStream addrB addrA 8 3]⟩
      addrB addrA (by decide)).2.2 [] (sampleIncomplete addrA) []
      (sampleStream addrB addrA 8 3) [] rfl rfl rfl rfl rfl (by decide) (by simp)⟩

/-- Claim C4: with source port 0, `rtp_find_call_stream` returns the newest
stream of the call whose destination is `dst`, complete or not and whatever
its source; it returns none exactly when no stream of the call has that
destination; a single incomplete stream towards `dst` is returned; the
result is that of the first loop alone, the exact search is not used. -/
theorem rtp_find_call_stream_wildcard (call : sip_call_t) (src dst : Address)
    (hport : src.port = 0) :
    (∀ i, rtp_find_call_stream call src dst = some i ↔
      IsNewest (fun s => s.dst = dst) call.streams i) ∧
    (rtp_find_call_stream call src dst = none ↔ ∀ s ∈ call.streams, s.dst ≠ dst) ∧
    (∀ s, call.streams = [s] → s.pktcnt = 0 → s.dst = dst →
      rtp_find_call_stream call src dst = some 0) ∧
    rtp_find_call_stream call src dst =
      rtp_find_call_stream_loop src dst call.streams.reverse := by
  have hsome := scanNewest_some _ _ (wildcard_pred_iff src dst hport) call.streams
  have hnone := scanNewest_none _ _ (wildcard_pred_iff src dst hport) call.streams
  have key : rtp_find_call_stream call src dst =
      scanNewest (fun s => addressport_equals dst s.dst &&
          (decide (src.port = 0) || decide (s.pktcnt = 0))) call.streams.reverse := by
    rw [rtp_find_call_stream_unfold]
    split
    · next it h => exact h.symm
    · next h =>
      rw [h]
      simp only [ne_eq, hport, not_true_eq_false, if_false]
  refine ⟨?_, ?_, ?_, ?_⟩
  · intro i
    rw [key]
    exact hsome i
  · rw [key]
    exact hnone
  · intro s hs _ hd
    rw [key]
    exact (hsome 0).mpr ⟨[], s, [], hs, rfl, hd, by simp⟩
  · rw [key, rtp_find_call_stream_loop_eq]

/-- Instance of C4: one incomplete stream towards A:5000, wildcard source. -/
theorem rtp_find_call_stream_wildcard_witness :
    addrWild.port = 0 ∧
    rtp_find_call_stream ⟨[sampleIncomplete addrA]⟩ addrWild addrA = some 0 :=
  ⟨rfl,
   (rtp_find_call_stream_wildcard ⟨[sampleIncomplete addrA]⟩ addrWild addrA rfl).2.2.1
      (sampleIncomplete addrA) rfl rfl rfl⟩

/-- Instance of C2: three bytes are below a header length of four. -/
theorem data_is_rtcp_short_witness :
    (3 < 4) ∧ data_is_rtcp 4 [150, 200, 0] 3 = some 1 ∧ data_is_rtcp 4 [] 3 = some 1 :=
  ⟨by decide, data_is_rtcp_short 4 [150, 200, 0] 3 (by decide)⟩

/-- Instance of C1: header length 4, a four byte buffer 150, 200, 0, 0. -/
theorem data_is_rtcp_iff_witness :
    (2 ≤ 4) ∧ (4 ≤ [150, 200, 0, 0].length) ∧
    data_is_rtcp 4 [150, 200, 0, 0] 4 = some 0 ∧
    data_is_rtcp 4 [150, 100, 0, 0] 4 = some 1 :=
  ⟨by decide, by decide,
   (data_is_rtcp_iff 4 [150, 200, 0, 0] 4 (by decide) (by decide)).2.2 [0, 0] rfl⟩

/-! ## Search over the call store, without format -/

theorem concat_eq_append_cons {α : Type} (l pre post : List α) (a x : α)
    (h : l ++ [a] = pre ++ x :: post) :
    (post = [] ∧ l = pre ∧ a = x) ∨ (∃ post2, post = post2 ++ [a] ∧ l = pre ++ x :: post2) := by
  rcases List.eq_nil_or_concat post with rfl | ⟨post2, b, rfl⟩
  · obtain ⟨h1, h2⟩ := List.append_inj' h rfl
    simp only [List.cons.injEq, and_true] at h2
    exact Or.inl ⟨rfl, h1, h2⟩
  · rw [List.concat_eq_append] at h
    have h3 : l ++ [a] = (pre ++ x :: post2) ++ [b] := by simpa using h
    obtain ⟨h1, h2⟩ := List.append_inj' h3 rfl
    simp only [List.cons.injEq, and_true] at h2
    subst h2
    exact Or.inr ⟨post2, by simp, h1⟩

theorem rtp_find_stream_loop_some (src dst : Address) (calls : List sip_call_t) (r : StreamRef) :
    rtp_find_stream_loop src dst calls.reverse = some r ↔
      ∃ pre c post, calls = pre ++ c :: post ∧ pre.length = r.call ∧
        rtp_find_call_stream c src dst = some r.stream ∧
        ∀ c2 ∈ post, rtp_find_call_stream c2 src dst = none := by
  induction calls using List.reverseRecOn with
  | nil => simp [rtp_find_stream_loop]
  | append_singleton calls c ih =>
    have hrev : (calls ++ [c]).reverse = c :: calls.reverse := by simp
    rw [hrev]
    simp only [rtp_find_stream_loop, List.length_reverse]
    cases hc : rtp_find_call_stream c src dst with
    | none =>
      simp only []
      rw [ih]
      constructor
      · rintro ⟨pre, x, post, rfl, hlen, hx, hpost⟩
        refine ⟨pre, x, post ++ [c], by simp, hlen, hx, ?_⟩
        intro c2 h2
        rcases List.mem_append.mp h2 with h | h
        · exact hpost c2 h
        · simp only [List.mem_singleton] at h
          subst h
          exact hc
      · rintro ⟨pre, x, post, h, hlen, hx, hpost⟩
        rcases concat_eq_append_cons calls pre post c x h with ⟨-, -, hcx⟩ | ⟨post2, rfl, hl⟩
        · subst hcx
          rw [hc] at hx
          simp at hx
        · exact ⟨pre, x, post2, hl, hlen, hx, fun c2 h2 => hpost c2 (by simp [h2])⟩
    | some st =>
      simp only [Option.some.injEq]
      constructor
      · rintro rfl
        exact ⟨calls, c, [], rfl, rfl, hc, by simp⟩
      · rintro ⟨pre, x, post, h, hlen, hx, hpost⟩
        rcases concat_eq_append_cons calls pre post c x h with ⟨-, hl, hcx⟩ | ⟨post2, rfl, -⟩
        · subst hcx hl
          rw [hc] at hx
          simp only [Option.some.injEq] at hx
          cases r
          simp only at hlen hx
          subst hlen hx
          rfl
        · have := hpost c (by simp)
          rw [hc] at this
          simp at this

theorem rtp_find_stream_loop_none (src dst : Address) (calls : List sip_call_t) :
    rtp_find_stream_loop src dst calls = none ↔
      ∀ c ∈ calls, rtp_find_call_stream c src dst = none := by
  induction calls with
  | nil => simp [rtp_find_stream_loop]
  | cons c older ih =>
    simp only [rtp_find_stream_loop, List.mem_cons, forall_eq_or_imp]
    cases hc : rtp_find_call_stream c src dst with
    | none => simpa using ih
    | some st => simp

/-- Claim C8: `rtp_find_stream` returns the per-call result of the last call
of the store (going from the last call to the first) whose per-call search is
not none, as a reference naming that call; it returns none exactly when the
per-call search is none for every call, in particular for an empty store. -/
theorem rtp_find_stream_first_call (calls : List sip_call_t) (src dst : Address) :
    (∀ r, rtp_find_stream calls src dst = some r ↔
      ∃ pre c post, calls = pre ++ c :: post ∧ pre.length = r.call ∧
        rtp_find_call_stream c src dst = some r.stream ∧
        ∀ c2 ∈ post, rtp_find_call_stream c2 src dst = none) ∧
    (rtp_find_stream calls src dst = none ↔
      ∀ c ∈ calls, rtp_find_call_stream c src dst = none) ∧
    rtp_find_stream [] src dst = none := by
  refine ⟨fun r => rtp_find_stream_loop_some src dst calls r, ?_, rfl⟩
  rw [rtp_find_stream, rtp_find_stream_loop_none]
  simp only [List.mem_reverse]

/-! ## Completion -/

/-- Claim C10: `stream_complete` returns the stream with its source set to
the given address whatever the packet count; completing twice leaves the last
address; packet count, first-seen time, last-activity time, destination,
format code, kind and media are unchanged. -/
theorem stream_complete_frame (s : rtp_stream_t) (a a1 a2 : Address) :
    (stream_complete s a).src = a ∧
    (stream_complete (stream_complete s a1) a2).src = a2 ∧
    (stream_complete s a).pktcnt = s.pktcnt ∧
    (stream_complete s a).time = s.time ∧
    (stream_complete s a).lasttm = s.lasttm ∧
    (stream_complete s a).dst = s.dst ∧
    (stream_complete s a).fmtcode = s.fmtcode ∧
    (stream_complete s a).type = s.type ∧
    (stream_complete s a).media = s.media :=
  ⟨rfl, rfl, rfl, rfl, rfl, rfl, rfl, rfl, rfl⟩

/-! ## End-to-end scenario -/

theorem addressport_equals_self (a : Address) : addressport_equals a a = true :=
  (addressport_equals_iff a a).mpr rfl

/-- Claim C9: in a store with the single call C whose streams are, in
creation order, S1 (RTP, destination A:5000, no packet) and S2 (RTP,
destination A:5000, some packets, source B:6000, format 8), the format-aware
search for (B:6000, A:5000, 8) returns S2, and the per-call search for a
source with non-zero port and destination A:5000 returns S1. -/
theorem end_to_end_scenario (ipA ipB : String) (S1 S2 : rtp_stream_t) (src2 : Address)
    (_h1t : S1.type = PacketProtoId.PACKET_RTP) (h1d : S1.dst = ⟨ipA, 5000⟩)
    (h1c : S1.pktcnt = 0)
    (h2t : S2.type = PacketProtoId.PACKET_RTP) (h2d : S2.dst = ⟨ipA, 5000⟩)
    (h2c : 0 < S2.pktcnt) (h2s : S2.src = ⟨ipB, 6000⟩) (h2f : S2.fmtcode = 8)
    (hsrc2 : src2.port ≠ 0) :
    rtp_find_stream_format [⟨[S1, S2]⟩] ⟨ipB, 6000⟩ ⟨ipA, 5000⟩ 8 = some ⟨0, 1⟩ ∧
    StreamRef.deref [⟨[S1, S2]⟩] ⟨0, 1⟩ = some S2 ∧
    rtp_find_call_stream ⟨[S1, S2]⟩ src2 ⟨ipA, 5000⟩ = some 0 ∧
    [S1, S2][0]? = some S1 := by
  have hc2 : S2.pktcnt ≠ 0 := by omega
  refine ⟨?_, rfl, ?_, rfl⟩
  · simp [rtp_find_stream_format, rtp_find_stream_format_calls, rtp_find_stream_format_streams,
      stream_is_complete, h2t, h2d, h2s, h2f, hc2, addressport_equals_self]
  · simp [rtp_find_call_stream, rtp_find_call_stream_loop, h1d, h1c, h2d, hc2, hsrc2,
      addressport_equals_self]

/-- Instance of C9: A = 10.0.0.1, B = 10.0.0.2, second packet from
10.0.0.3:7000. -/
theorem end_to_end_scenario_witness :
    rtp_find_stream_format [⟨[sampleIncomplete addrA, sampleStream addrB addrA 8 3]⟩]
      addrB addrA 8 = some ⟨0, 1⟩ ∧
    StreamRef.deref [⟨[sampleIncomplete addrA, sampleStream addrB addrA 8 3]⟩] ⟨0, 1⟩
      = some (sampleStream addrB addrA 8 3) ∧
    rtp_find_call_stream ⟨[sampleIncomplete addrA, sampleStream addrB addrA 8 3]⟩
      addrC addrA = some 0 ∧
    [sampleIncomplete addrA, sampleStream addrB addrA 8 3][0]? = some (sampleIncomplete addrA) :=
  end_to_end_scenario "10.0.0.1" "10.0.0.2" (sampleIncomplete addrA)
    (sampleStream addrB addrA 8 3) addrC rfl rfl rfl rfl rfl (by decide) rfl rfl (by decide)

/-! ## Format-aware search over the call store -/

theorem addressport_equals_eq_decide (a b : Address) :
    addressport_equals a b = decide (a = b) := by
  rw [Bool.eq_iff_iff]
  simp [addressport_equals_iff]

theorem newestFirst_concat {α : Type} (l : List α) (a : α) :
    newestFirst (l ++ [a]) = (l.length, a) :: newestFirst l := by
  simp [newestFirst, List.enum_append, List.enumFrom]

theorem call_scan_order_concat (call : Nat) (l : List rtp_stream_t) (a : rtp_stream_t) :
    call_scan_order call (l ++ [a]) = (⟨call, l.length⟩, a) :: call_scan_order call l := by
  simp [call_scan_order, newestFirst_concat]

theorem scan_order_concat (calls : List sip_call_t) (c : sip_call_t) :
    scan_order (calls ++ [c]) = call_scan_order calls.length c.streams ++ scan_order calls := by
  simp [scan_order, newestFirst_concat]

theorem scan_spec_append (src dst : Address) (format : Nat) (candidate : Option StreamRef)
    (E1 E2 : List (StreamRef × rtp_stream_t)) :
    scan_spec src dst format candidate (E1 ++ E2) =
      match scan_spec src dst format candidate E1 with
      | Scan.returned r => Scan.returned r
      | Scan.ended c2 => scan_spec src dst format c2 E2 := by
  simp only [scan_spec, List.filter_append, List.find?_append, List.getLast?_append]
  cases h1 : (E1.filter (fun e => is_rtp e.2)).find?
      (fun e => immediate_match src dst format e.2) with
  | some e => simp
  | none =>
    cases h2 : (E2.filter (fun e => is_rtp e.2)).find?
        (fun e => immediate_match src dst format e.2) with
    | some e => simp
    | none =>
      simp only [Option.or_none, Scan.ended.injEq]
      cases ((E2.filter (fun e => is_rtp e.2)).filter
        (fun e => fallback_match src dst e.2)).getLast? <;>
      cases ((E1.filter (fun e => is_rtp e.2)).filter
        (fun e => fallback_match src dst e.2)).getLast? <;> simp

theorem rtp_find_stream_format_streams_step (call : Nat) (src dst : Address) (format : Nat)
    (candidate : Option StreamRef) (a : rtp_stream_t) (older : List rtp_stream_t) :
    rtp_find_stream_format_streams call src dst format candidate (a :: older) =
      match scan_spec src dst format candidate [(⟨call, older.length⟩, a)] with
      | Scan.returned r => Scan.returned r
      | Scan.ended c2 => rtp_find_stream_format_streams call src dst format c2 older := by
  simp only [rtp_find_stream_format_streams, scan_spec, stream_is_complete, is_rtp,
    immediate_match, fallback_match, addressport_equals_eq_decide]
  by_cases ht : a.type = PacketProtoId.PACKET_RTP <;>
    by_cases hc : a.pktcnt = 0 <;>
    by_cases hs : a.src = src <;>
    by_cases hd : a.dst = dst <;>
    by_cases hf : a.fmtcode = format <;>
    simp [ht, hc, hs, hd, hf, List.filter, List.find?]

theorem rtp_find_stream_format_streams_spec (call : Nat) (src dst : Address) (format : Nat)
    (streams : List rtp_stream_t) (candidate : Option StreamRef) :
    rtp_find_stream_format_streams call src dst format candidate streams.reverse =
      scan_spec src dst format candidate (call_scan_order call streams) := by
  induction streams using List.reverseRecOn generalizing candidate with
  | nil => simp [rtp_find_stream_format_streams, scan_spec, call_scan_order, newestFirst]
  | append_singleton l a ih =>
    have hrev : (l ++ [a]).reverse = a :: l.reverse := by simp
    have hcons : (⟨call, l.length⟩, a) :: call_scan_order call l =
        [((⟨call, l.length⟩ : StreamRef), a)] ++ call_scan_order call l := rfl
    rw [hrev, rtp_find_stream_format_streams_step, call_scan_order_concat, hcons,
      scan_spec_append, List.length_reverse]
    cases scan_spec src dst format candidate [((⟨call, l.length⟩ : StreamRef), a)] with
    | returned r => rfl
    | ended c2 => exact ih c2

theorem rtp_find_stream_format_calls_spec (src dst : Address) (format : Nat)
    (calls : List sip_call_t) (candidate : Option StreamRef) :
    rtp_find_stream_format_calls src dst format candidate calls.reverse =
      match scan_spec src dst format candidate (scan_order calls) with
      | Scan.returned r => some r
      | Scan.ended c => c := by
  induction calls using List.reverseRecOn generalizing candidate with
  | nil => simp [rtp_find_stream_format_calls, scan_spec, scan_order, newestFirst]
  | append_singleton l c ih =>
    have hrev : (l ++ [c]).reverse = c :: l.reverse := by simp
    rw [hrev, scan_order_concat, scan_spec_append]
    simp only [rtp_find_stream_format_calls, List.length_reverse,
      rtp_find_stream_format_streams_spec]
    cases scan_spec src dst format candidate (call_scan_order l.length c.streams) with
    | returned r => rfl
    | ended c2 => exact ih c2

/-- Claim C5: `rtp_find_stream_format` scans calls from last to first and,
inside each call, streams from last to first, looking only at RTP streams; it
returns the first scanned stream that is incomplete with destination `dst`, or
complete with source `src`, destination `dst` and format code `format`; when
no scanned stream is such, it returns the last scanned complete RTP stream
with source `src` and destination `dst`, or none when there is none.  In that
second case every such stream has a format code other than `format`. -/
theorem rtp_find_stream_format_refines (calls : List sip_call_t) (src dst : Address)
    (format : Nat) :
    rtp_find_stream_format calls src dst format =
      rtp_find_stream_format_spec calls src dst format ∧
    (((scan_order calls).filter (fun e => is_rtp e.2)).find?
        (fun e => immediate_match src dst format e.2) = none →
      ∀ e ∈ ((scan_order calls).filter (fun e => is_rtp e.2)).filter
          (fun e => fallback_match src dst e.2),
        e.2.fmtcode ≠ format) := by
  constructor
  · rw [rtp_find_stream_format, rtp_find_stream_format_calls_spec]
    simp only [scan_spec, rtp_find_stream_format_spec]
    cases ((scan_order calls).filter (fun e => is_rtp e.2)).find?
        (fun e => immediate_match src dst format e.2) with
    | some e => rfl
    | none => simp
  · intro hnone e he hfmt
    obtain ⟨he1, he2⟩ := List.mem_filter.mp he
    have hni := List.find?_eq_none.mp hnone e he1
    apply hni
    simp only [fallback_match, Bool.and_eq_true, decide_eq_true_eq] at he2
    simp [immediate_match, he2.1.1, he2.1.2, he2.2, hfmt]

/-- The scan order on a store of two calls with two streams each. -/
theorem scan_order_sample :
    (scan_order storeFallbacks).map Prod.fst = [⟨1, 1⟩, ⟨1, 0⟩, ⟨0, 1⟩, ⟨0, 0⟩] := by
  decide

theorem mem_newestFirst_iff {α : Type} (l : List α) (i : Nat) (a : α) :
    (i, a) ∈ newestFirst l ↔ l[i]? = some a := by
  simp [newestFirst, List.mk_mem_enum_iff_getElem?]

/-- The scan order holds exactly the streams of the store, each under the
reference that points at it. -/
theorem mem_scan_order_iff (calls : List sip_call_t) (r : StreamRef) (s : rtp_stream_t) :
    (r, s) ∈ scan_order calls ↔ StreamRef.deref calls r = some s := by
  cases r with
  | mk ci si =>
    simp only [scan_order, call_scan_order, List.mem_flatMap, List.mem_map, Prod.mk.injEq,
      StreamRef.mk.injEq, Prod.exists, mem_newestFirst_iff, StreamRef.deref]
    constructor
    · rintro ⟨cj, c, hc, sj, t, ht, ⟨rfl, rfl⟩, rfl⟩
      simp [hc, ht]
    · intro h
      cases hc : calls[ci]? with
      | none => simp [hc] at h
      | some c =>
        simp only [hc] at h
        exact ⟨ci, c, hc, si, s, h, ⟨rfl, rfl⟩, rfl⟩

/-! ## Exact-match precedence -/

theorem scan_spec_single_skip (src dst : Address) (format : Nat) (candidate : Option StreamRef)
    (r : StreamRef) (a : rtp_stream_t)
    (h : is_rtp a = true → immediate_match src dst format a = false) :
    scan_spec src dst format candidate [(r, a)] =
      Scan.ended (if (is_rtp a && fallback_match src dst a) = true then some r else candidate) := by
  by_cases ht : is_rtp a = true
  · have hi := h ht
    by_cases hf : fallback_match src dst a = true <;>
      simp [scan_spec, List.filter, List.find?, ht, hi, hf]
  · simp [scan_spec, List.filter, List.find?, ht]

theorem scan_spec_single_hit (src dst : Address) (format : Nat) (candidate : Option StreamRef)
    (r : StreamRef) (a : rtp_stream_t)
    (ht : is_rtp a = true) (hi : immediate_match src dst format a = true) :
    scan_spec src dst format candidate [(r, a)] = Scan.returned r := by
  simp [scan_spec, List.filter, List.find?, ht, hi]

theorem rtp_find_stream_format_streams_skip (call : Nat) (src dst : Address) (format : Nat)
    (l : List rtp_stream_t)
    (h : ∀ s ∈ l, is_rtp s = true → immediate_match src dst format s = false)
    (candidate : Option StreamRef) (rest : List rtp_stream_t) :
    ∃ c2, rtp_find_stream_format_streams call src dst format candidate (l ++ rest) =
      rtp_find_stream_format_streams call src dst format c2 rest := by
  induction l generalizing candidate with
  | nil => exact ⟨candidate, rfl⟩
  | cons a l ih =>
    rw [List.cons_append, rtp_find_stream_format_streams_step,
      scan_spec_single_skip src dst format candidate _ a (h a (by simp))]
    exact ih (fun s hs => h s (by simp [hs])) _

theorem rtp_find_stream_format_calls_skip (src dst : Address) (format : Nat)
    (l : List sip_call_t)
    (h : ∀ c ∈ l, ∀ s ∈ c.streams, is_rtp s = true → immediate_match src dst format s = false)
    (candidate : Option StreamRef) (rest : List sip_call_t) :
    ∃ c2, rtp_find_stream_format_calls src dst format candidate (l ++ rest) =
      rtp_find_stream_format_calls src dst format c2 rest := by
  induction l generalizing candidate with
  | nil => exact ⟨candidate, rfl⟩
  | cons c l ih =>
    obtain ⟨c2, hc2⟩ := rtp_find_stream_format_streams_skip (l ++ rest).length src dst format
      c.streams.reverse (fun s hs => h c (by simp) s (List.mem_reverse.mp hs)) candidate []
    rw [List.append_nil] at hc2
    obtain ⟨c3, hc3⟩ := ih (fun d hd => h d (by simp [hd])) c2
    refine ⟨c3, ?_⟩
    rw [List.cons_append]
    simp only [rtp_find_stream_format_calls, hc2, rtp_find_stream_format_streams]
    exact hc3

/-- Claim C6, as amended: a complete RTP stream E with source `src`,
destination `dst` and the requested format code is returned by
`rtp_find_stream_format` whenever no RTP stream scanned before it (the streams
of later calls and the later streams of its own call) matches immediately;
complete streams with the same addresses and another format code, scanned
first in other calls, do not change the result. -/
theorem exact_match_precedence (calls : List sip_call_t) (src dst : Address) (format : Nat)
    (pre post : List sip_call_t) (c : sip_call_t) (spre spost : List rtp_stream_t)
    (E : rtp_stream_t)
    (hcalls : calls = pre ++ c :: post) (hstreams : c.streams = spre ++ E :: spost)
    (hkind : E.type = PacketProtoId.PACKET_RTP) (hcount : E.pktcnt ≠ 0)
    (hsrc : E.src = src) (hdst : E.dst = dst) (hfmt : E.fmtcode = format)
    (hpost : ∀ c2 ∈ post, ∀ s ∈ c2.streams,
      is_rtp s = true → immediate_match src dst format s = false)
    (hspost : ∀ s ∈ spost, is_rtp s = true → immediate_match src dst format s = false) :
    rtp_find_stream_format calls src dst format = some ⟨pre.length, spre.length⟩ := by
  have hrev : calls.reverse = post.reverse ++ c :: pre.reverse := by
    rw [hcalls]; simp
  have hsrev : c.streams.reverse = spost.reverse ++ E :: spre.reverse := by
    rw [hstreams]; simp
  obtain ⟨c2, hc2⟩ := rtp_find_stream_format_calls_skip src dst format post.reverse
    (fun d hd => hpost d (List.mem_reverse.mp hd)) none (c :: pre.reverse)
  obtain ⟨c3, hc3⟩ := rtp_find_stream_format_streams_skip pre.reverse.length src dst format
    spost.reverse (fun s hs => hspost s (List.mem_reverse.mp hs)) c2 (E :: spre.reverse)
  have hE : is_rtp E = true ∧ immediate_match src dst format E = true := by
    simp [is_rtp, immediate_match, hkind, hcount, hsrc, hdst, hfmt]
  rw [rtp_find_stream_format, hrev, hc2]
  simp only [rtp_find_stream_format_calls, hsrev, hc3]
  rw [rtp_find_stream_format_streams_step, scan_spec_single_hit src dst format c3 _ E hE.1 hE.2]
  simp

/-- Instance of C6 as amended: in `storeExactLast` the stream with another
format is scanned first and the format-exact stream of the first call is
returned. -/
theorem exact_match_precedence_witness :
    rtp_find_stream_format storeExactLast addrB addrA 8 = some ⟨0, 0⟩ :=
  exact_match_precedence storeExactLast addrB addrA 8 []
    [⟨[sampleStream addrB addrA 0 3]⟩] ⟨[sampleStream addrB addrA 8 3]⟩ [] []
    (sampleStream addrB addrA 8 3) rfl rfl rfl (by decide) rfl rfl rfl
    (by decide) (by simp)

/-- Claim C6 as stated fails.  In `storeOtherSource` two complete streams in
different calls have destination A:5000, one with the requested format 8 and
one with format 0, and the search for (B:6000, A:5000, 8) returns the stream
with format 0, because only that one has source B:6000.  In
`storeWithIncomplete` both have source B:6000, and the search returns the
fresh stream of the last call. -/
theorem exact_match_precedence_counterexample :
    (StreamRef.deref storeOtherSource ⟨0, 0⟩ = some (sampleStream addrC addrA 8 3) ∧
     StreamRef.deref storeOtherSource ⟨1, 0⟩ = some (sampleStream addrB addrA 0 3) ∧
     (sampleStream addrC addrA 8 3).pktcnt ≠ 0 ∧ (sampleStream addrB addrA 0 3).pktcnt ≠ 0 ∧
     (sampleStream addrC addrA 8 3).dst = addrA ∧ (sampleStream addrB addrA 0 3).dst = addrA ∧
     (sampleStream addrC addrA 8 3).fmtcode = 8 ∧ (sampleStream addrB addrA 0 3).fmtcode ≠ 8 ∧
     rtp_find_stream_format storeOtherSource addrB addrA 8 = some ⟨1, 0⟩) ∧
    (StreamRef.deref storeWithIncomplete ⟨0, 0⟩ = some (sampleStream addrB addrA 8 3) ∧
     StreamRef.deref storeWithIncomplete ⟨1, 0⟩ = some (sampleStream addrB addrA 0 3) ∧
     rtp_find_stream_format storeWithIncomplete addrB addrA 8 = some ⟨2, 0⟩) := by
  decide

/-! ## The fallback candidate -/

theorem rtp_find_stream_format_streams_fallback (call : Nat) (src dst : Address) (format : Nat)
    (l : List rtp_stream_t)
    (h : ∀ s ∈ l, is_rtp s = true → immediate_match src dst format s = false)
    (candidate : Option StreamRef) :
    rtp_find_stream_format_streams call src dst format candidate l.reverse =
      Scan.ended (((l.findIdx? (fun s => is_rtp s && fallback_match src dst s)).map
        (fun i => (⟨call, i⟩ : StreamRef))).or candidate) := by
  induction l using List.reverseRecOn generalizing candidate with
  | nil => simp [rtp_find_stream_format_streams]
  | append_singleton l a ih =>
    have hrev : (l ++ [a]).reverse = a :: l.reverse := by simp
    rw [hrev, rtp_find_stream_format_streams_step,
      scan_spec_single_skip src dst format candidate _ a (h a (by simp))]
    simp only []
    rw [ih (fun s hs => h s (by simp [hs])), List.findIdx?_append]
    cases hl : l.findIdx? (fun s => is_rtp s && fallback_match src dst s) with
    | some i => simp
    | none =>
      by_cases hp : (is_rtp a && fallback_match src dst a) = true <;>
        simp [hp, List.findIdx?_cons]

theorem rtp_find_stream_format_calls_fallback (src dst : Address) (format : Nat)
    (calls : List sip_call_t)
    (h : ∀ c ∈ calls, ∀ s ∈ c.streams,
      is_rtp s = true → immediate_match src dst format s = false)
    (candidate : Option StreamRef) :
    rtp_find_stream_format_calls src dst format candidate calls.reverse =
      (oldest_fallback calls src dst).or candidate := by
  induction calls using List.reverseRecOn generalizing candidate with
  | nil => simp [rtp_find_stream_format_calls, oldest_fallback]
  | append_singleton l c ih =>
    have hrev : (l ++ [c]).reverse = c :: l.reverse := by simp
    rw [hrev]
    simp only [rtp_find_stream_format_calls]
    rw [rtp_find_stream_format_streams_fallback _ src dst format c.streams
      (h c (by simp))]
    simp only []
    rw [ih (fun d hd => h d (by simp [hd]))]
    simp only [oldest_fallback, List.enum_append, List.findSome?_append, List.length_reverse]
    cases List.findSome? (fun c : Nat × sip_call_t =>
      (c.2.streams.findIdx? (fun s => is_rtp s && fallback_match src dst s)).map
        (fun i => (⟨c.1, i⟩ : StreamRef))) l.enum with
    | some r => simp
    | none =>
      simp only [List.enumFrom, List.findSome?, Option.none_or]
      cases Option.map (fun i => (⟨l.length, i⟩ : StreamRef))
        (List.findIdx? (fun s => is_rtp s && fallback_match src dst s) c.streams) <;> rfl

/-- What the loops of `rtp_find_stream_format` do when no RTP stream of the
store matches immediately: every later scanned fallback match overwrites
`candidate` (source line 157), so the result is the last scanned one, the
oldest such stream of the first call that has one. -/
theorem rtp_find_stream_format_last_scanned (calls : List sip_call_t) (src dst : Address)
    (format : Nat)
    (hno : ∀ c ∈ calls, ∀ s ∈ c.streams,
      is_rtp s = true → immediate_match src dst format s = false) :
    rtp_find_stream_format calls src dst format = oldest_fallback calls src dst := by
  rw [rtp_find_stream_format, rtp_find_stream_format_calls_fallback src dst format calls hno]
  simp

/-- Claim C7: with no immediate match and several complete RTP streams from
`src` to `dst` with another format code, the fallback is to be the most recent
of them, the newest such stream of the most recently touched call.  The code
misses this.  In `storeFallbacks` the four streams are such fallback matches
for (B:6000, A:5000, 8) and the most recent one is stream 1 of call 1, but
`rtp_find_stream_format` returns stream 0 of call 0, the least recent one.
Every other path returns the newest match on this store: the format-exact
branch (requested format 0), `rtp_find_call_exact_stream`, and
`rtp_find_stream`; with a fresh stream in each call the incomplete branch
does too. -/
theorem fallback_candidate_defect :
    (∀ c ∈ storeFallbacks, ∀ s ∈ c.streams,
      s.type = PacketProtoId.PACKET_RTP ∧ s.pktcnt ≠ 0 ∧ s.src = addrB ∧ s.dst = addrA ∧
        s.fmtcode ≠ 8) ∧
    newest_fallback storeFallbacks addrB addrA = some ⟨1, 1⟩ ∧
    rtp_find_stream_format storeFallbacks addrB addrA 8 = some ⟨0, 0⟩ ∧
    rtp_find_stream_format storeFallbacks addrB addrA 8 ≠
      newest_fallback storeFallbacks addrB addrA ∧
    rtp_find_stream_format storeFallbacks addrB addrA 0 = some ⟨1, 1⟩ ∧
    rtp_find_call_exact_stream
      ⟨[sampleStream addrB addrA 0 7, sampleStream addrB addrA 0 9]⟩ addrB addrA = some 1 ∧
    rtp_find_stream storeFallbacks addrB addrA = some ⟨1, 1⟩ ∧
    rtp_find_stream_format
      [⟨[sampleIncomplete addrA, sampleIncomplete addrA]⟩,
       ⟨[sampleIncomplete addrA, sampleIncomplete addrA]⟩] addrB addrA 8 = some ⟨1, 1⟩ := by
  decide

/-! ## Packet accounting -/

theorem stream_add_packet_pktcnt (t : rtp_stream_t) (p : packet_t) (now : Int) :
    (stream_add_packet t p now).pktcnt = (t.pktcnt + 1) % 2 ^ 32 := by
  unfold stream_add_packet
  by_cases h : t.pktcnt = 0 <;> simp [h]

theorem stream_add_packet_time_first (t : rtp_stream_t) (p : packet_t) (now : Int)
    (h : t.pktcnt = 0) : (stream_add_packet t p now).time = packet_time p := by
  simp [stream_add_packet, h]

theorem stream_add_packet_time_later (t : rtp_stream_t) (p : packet_t) (now : Int)
    (h : t.pktcnt ≠ 0) : (stream_add_packet t p now).time = t.time := by
  simp [stream_add_packet, h]

theorem stream_add_packet_lasttm (t : rtp_stream_t) (p : packet_t) (now : Int) :
    (stream_add_packet t p now).lasttm = to_int now := by
  unfold stream_add_packet
  by_cases h : t.pktcnt = 0 <;> simp [h]

theorem add_packets_cons (t : rtp_stream_t) (c : packet_t × Int) (rest : List (packet_t × Int)) :
    add_packets t (c :: rest) = add_packets (stream_add_packet t c.1 c.2) rest := rfl

theorem add_packets_nil (t : rtp_stream_t) : add_packets t [] = t := rfl

theorem add_packets_append (t : rtp_stream_t) (l1 l2 : List (packet_t × Int)) :
    add_packets t (l1 ++ l2) = add_packets (add_packets t l1) l2 := by
  simp [add_packets, List.foldl_append]

theorem add_packets_time_kept (rest : List (packet_t × Int)) (t : rtp_stream_t)
    (hbound : t.pktcnt + rest.length ≤ 2 ^ 32) (hpos : 0 < t.pktcnt ∨ rest = []) :
    (add_packets t rest).time = t.time := by
  induction rest generalizing t with
  | nil => rfl
  | cons c rest ih =>
    have hk : 0 < t.pktcnt := by
      rcases hpos with h | h
      · exact h
      · simp at h
    simp only [List.length_cons] at hbound
    rw [add_packets_cons, ih]
    · exact stream_add_packet_time_later t c.1 c.2 (by omega)
    · rw [stream_add_packet_pktcnt]
      have := Nat.mod_le (t.pktcnt + 1) (2 ^ 32)
      omega
    · rw [stream_add_packet_pktcnt]
      rcases rest with _ | ⟨d, rest2⟩
      · exact Or.inr rfl
      · left
        simp only [List.length_cons] at hbound
        rw [Nat.mod_eq_of_lt (by omega)]
        omega

theorem add_packets_pktcnt_mod (calls : List (packet_t × Int)) (t : rtp_stream_t) :
    (add_packets t calls).pktcnt % 2 ^ 32 = (t.pktcnt + calls.length) % 2 ^ 32 := by
  induction calls generalizing t with
  | nil => rfl
  | cons c rest ih =>
    rw [add_packets_cons, ih, stream_add_packet_pktcnt, List.length_cons]
    omega

theorem add_packets_pktcnt_lt (calls : List (packet_t × Int)) (t : rtp_stream_t)
    (hne : calls ≠ []) : (add_packets t calls).pktcnt < 2 ^ 32 := by
  rcases List.eq_nil_or_concat calls with h | ⟨l, c, h⟩
  · exact absurd h hne
  · rw [h, List.concat_eq_append, add_packets_append]
    show (stream_add_packet (add_packets t l) c.1 c.2).pktcnt < 2 ^ 32
    rw [stream_add_packet_pktcnt]
    exact Nat.mod_lt _ (by norm_num)

theorem add_packets_time_fresh (s : rtp_stream_t) (first : packet_t × Int)
    (rest : List (packet_t × Int)) (hfresh : s.pktcnt = 0) (hlen : rest.length < 2 ^ 32) :
    (add_packets s (first :: rest)).time = packet_time first.1 := by
  rw [add_packets_cons, add_packets_time_kept]
  · exact stream_add_packet_time_first s first.1 first.2 hfresh
  · rw [stream_add_packet_pktcnt, hfresh]
    norm_num
    omega
  · left
    rw [stream_add_packet_pktcnt, hfresh]
    norm_num

theorem add_packets_replicate_time (n : Nat) (x : packet_t × Int) (s : rtp_stream_t)
    (hfresh : s.pktcnt = 0) (hpos : 1 ≤ n) (hle : n ≤ 2 ^ 32) :
    (add_packets s (List.replicate n x)).time = packet_time x.1 := by
  obtain ⟨m, rfl⟩ : ∃ m, n = m + 1 := ⟨n - 1, by omega⟩
  rw [List.replicate_succ]
  exact add_packets_time_fresh s x (List.replicate m x) hfresh
    (by rw [List.length_replicate]; omega)

theorem add_packets_replicate_wrap (n : Nat) (x : packet_t × Int) (s : rtp_stream_t)
    (hfresh : s.pktcnt = 0) (hn : n = 2 ^ 32) :
    (add_packets s (List.replicate n x)).pktcnt = 0 := by
  have hmod := add_packets_pktcnt_mod (List.replicate n x) s
  have hne : List.replicate n x ≠ [] := by
    intro h
    have hl := congrArg List.length h
    rw [List.length_replicate] at hl
    simp only [List.length_nil] at hl
    omega
  have hlt := add_packets_pktcnt_lt (List.replicate n x) s hne
  have hzero : (add_packets s (List.replicate n x)).pktcnt % 2 ^ 32 = 0 := by
    rw [hmod, List.length_replicate, hfresh, Nat.zero_add, hn, Nat.mod_self]
  rwa [Nat.mod_eq_of_lt hlt] at hzero

/-- Claim C11, as amended: starting from a stream with packet count 0, over
any sequence of one to 2^32 calls of `stream_add_packet` the first-seen time
is set by the first call, which moves the packet count from 0 to 1, to the
time of that packet, and every later call of the sequence leaves it unchanged.
The packet count is incremented by one modulo 2^32 on each call, and a call
sets the first-seen time exactly when it finds the packet count at 0. -/
theorem first_seen_set_once (s : rtp_stream_t) (first : packet_t × Int)
    (rest : List (packet_t × Int)) (hfresh : s.pktcnt = 0) (hlen : rest.length < 2 ^ 32) :
    (stream_add_packet s first.1 first.2).pktcnt = 1 ∧
    (stream_add_packet s first.1 first.2).time = packet_time first.1 ∧
    (∀ k, (add_packets s (first :: rest.take k)).time = packet_time first.1) ∧
    (add_packets s (first :: rest)).time = packet_time first.1 ∧
    (add_packets s (first :: rest)).pktcnt = (rest.length + 1) % 2 ^ 32 ∧
    (∀ (t : rtp_stream_t) (p : packet_t) (now : Int),
      (stream_add_packet t p now).pktcnt = (t.pktcnt + 1) % 2 ^ 32 ∧
      (t.pktcnt ≠ 0 → (stream_add_packet t p now).time = t.time) ∧
      (t.pktcnt = 0 → (stream_add_packet t p now).time = packet_time p)) := by
  refine ⟨?_, stream_add_packet_time_first s first.1 first.2 hfresh, ?_,
    add_packets_time_fresh s first rest hfresh hlen, ?_, ?_⟩
  · rw [stream_add_packet_pktcnt, hfresh]
    norm_num
  · intro k
    apply add_packets_time_fresh s first (rest.take k) hfresh
    rw [List.length_take]
    omega
  · have hmod := add_packets_pktcnt_mod (first :: rest) s
    have hlt := add_packets_pktcnt_lt (first :: rest) s (by simp)
    rw [Nat.mod_eq_of_lt hlt, hfresh, Nat.zero_add, List.length_cons] at hmod
    exact hmod
  · intro t p now
    exact ⟨stream_add_packet_pktcnt t p now, stream_add_packet_time_later t p now,
      stream_add_packet_time_first t p now⟩

/-- Instance of C11 as amended: three packets on a fresh stream. -/
theorem first_seen_set_once_witness :
    (sampleIncomplete addrA).pktcnt = 0 ∧
    (add_packets (sampleIncomplete addrA)
      [(samplePacket 1, 100), (samplePacket 2, 101), (samplePacket 3, 102)]).time
      = packet_time (samplePacket 1) :=
  ⟨rfl, (first_seen_set_once (sampleIncomplete addrA) (samplePacket 1, 100)
    [(samplePacket 2, 101), (samplePacket 3, 102)] rfl (by norm_num)).2.2.2.1⟩

/-- Claim C11 as stated fails.  On a fresh stream, 2^32 calls with a packet
of second 1 leave the first-seen time at second 1 and bring the 32 bit packet
count back to 0; the next call, with a packet of second 2, sets the first-seen
time again. -/
theorem first_seen_set_once_counterexample :
    (sampleIncomplete addrA).pktcnt = 0 ∧
    (add_packets (sampleIncomplete addrA)
      (List.replicate (2 ^ 32) (samplePacket 1, 0))).time = ⟨1, 0⟩ ∧
    (add_packets (sampleIncomplete addrA)
      (List.replicate (2 ^ 32) (samplePacket 1, 0))).pktcnt = 0 ∧
    (add_packets (sampleIncomplete addrA)
      (List.replicate (2 ^ 32) (samplePacket 1, 0) ++ [(samplePacket 2, 0)])).time = ⟨2, 0⟩ := by
  have hwrap := add_packets_replicate_wrap (2 ^ 32) (samplePacket 1, 0)
    (sampleIncomplete addrA) rfl rfl
  refine ⟨rfl, ?_, hwrap, ?_⟩
  · exact add_packets_replicate_time (2 ^ 32) (samplePacket 1, 0) (sampleIncomplete addrA)
      rfl (by norm_num) (le_refl _)
  · rw [add_packets_append, add_packets_cons, add_packets_nil,
      stream_add_packet_time_first _ _ _ hwrap]
    rfl

/-! ## Last activity -/

theorem to_int_of_range (x : Int) (hlo : -2 ^ 31 ≤ x) (hhi : x < 2 ^ 31) : to_int x = x := by
  unfold to_int
  norm_num at hlo hhi ⊢
  omega

theorem lasttm_after_eq (calls : List (packet_t × Int)) (s : rtp_stream_t) :
    lasttm_after s calls = calls.map (fun c => to_int c.2) := by
  induction calls generalizing s with
  | nil => rfl
  | cons c rest ih =>
    simp only [lasttm_after, List.map_cons, ih, stream_add_packet_lasttm]

/-- Claim C12, as amended: for every stream and every sequence of successive
`stream_add_packet` calls during which the clock readings `time(NULL)` are
non-decreasing and within the range of `int`, the last-activity time stored
after each call is greater than or equal to the value stored by the previous
call, whatever the observed times of the packets. -/
theorem last_activity_monotone (s : rtp_stream_t) (calls : List (packet_t × Int))
    (hrange : ∀ c ∈ calls, -2 ^ 31 ≤ c.2 ∧ c.2 < 2 ^ 31)
    (hclock : List.Chain' (fun a b => a ≤ b) (calls.map Prod.snd)) :
    List.Chain' (fun a b => a ≤ b) (lasttm_after s calls) := by
  have hmap : calls.map (fun c => to_int c.2) = calls.map Prod.snd := by
    apply List.map_congr_left
    intro c hc
    exact to_int_of_range c.2 (hrange c hc).1 (hrange c hc).2
  rw [lasttm_after_eq, hmap]
  exact hclock

/-- Instance of C12 as amended: packet times going backwards, clock readings
100, 100, 105. -/
theorem last_activity_monotone_witness :
    lasttm_after (sampleIncomplete addrA)
      [(samplePacket 9, 100), (samplePacket 5, 100), (samplePacket 1, 105)] = [100, 100, 105] ∧
    List.Chain' (fun a b => a ≤ b) (lasttm_after (sampleIncomplete addrA)
      [(samplePacket 9, 100), (samplePacket 5, 100), (samplePacket 1, 105)]) :=
  ⟨by decide,
   last_activity_monotone (sampleIncomplete addrA)
    [(samplePacket 9, 100), (samplePacket 5, 100), (samplePacket 1, 105)]
    (by decide) (by simp)⟩

/-- Claim C12 as stated fails.  Two packets with non-decreasing observed
times (seconds 1 and 2) are added while the clock reads 100 and then 50: the
last-activity time goes from 100 to 50.  With clock readings 2^31 - 1 and
2^31, which do not decrease, it goes from 2147483647 to -2147483648. -/
theorem last_activity_monotone_counterexample :
    timeval_le (packet_time (samplePacket 1)) (packet_time (samplePacket 2)) = true ∧
    lasttm_after (sampleIncomplete addrA) [(samplePacket 1, 100), (samplePacket 2, 50)]
      = [100, 50] ∧
    lasttm_after (sampleIncomplete addrA)
      [(samplePacket 1, 2147483647), (samplePacket 2, 2147483648)]
      = [2147483647, -2147483648] := by
  decide

/-! ## Older-than -/

/-- Claim C13: `stream_is_older(x, absent)` is 1 and `stream_is_older(x, x)`
is 0 for every stream x; the absence test on the second argument comes before
the identity test (two NULL pointers give 1); the first-seen times are
compared only when the second argument is present and distinct from the
first. -/
theorem stream_is_older_laws (timeval_is_older : timeval → timeval → Int)
    (heap : Nat → rtp_stream_t) (x : Nat) :
    stream_is_older timeval_is_older heap (some x) none = some 1 ∧
    stream_is_older timeval_is_older heap (some x) (some x) = some 0 ∧
    stream_is_older timeval_is_older heap none none = some 1 ∧
    (∀ y, y ≠ x → stream_is_older timeval_is_older heap (some x) (some y) =
      some (timeval_is_older (heap x).time (heap y).time)) ∧
    (∀ (other : timeval → timeval → Int) (two : Option Nat), (two = none ∨ two = some x) →
      stream_is_older timeval_is_older heap (some x) two =
        stream_is_older other heap (some x) two) := by
  refine ⟨rfl, by simp [stream_is_older], rfl, ?_, ?_⟩
  · intro y hy
    have hne : ¬ (x = y) := fun h => hy h.symm
    simp [stream_is_older, hne]
  · rintro other two (rfl | rfl) <;> simp [stream_is_older]

/-! ## Format label -/

theorem stream_get_format_loop_eq (fmtcode : Nat) (formats : List PacketSdpFormat) :
    stream_get_format_loop fmtcode formats =
      (formats.find? (fun f => f.id == fmtcode)).map (fun f => f.alias_) := by
  induction formats with
  | nil => rfl
  | cons f rest ih =>
    by_cases h : f.id = fmtcode
    · simp [stream_get_format_loop, h]
    · have hb : (f.id == fmtcode) = false := by simpa using h
      simp [stream_get_format_loop, List.find?_cons, h, hb, ih]

/-- Claim C14: for a stream with a media descriptor, `stream_get_format`
returns the name of the standard codec table when the format code is in that
table, whatever the format list of the media descriptor holds; otherwise the
alias of the first entry of the format list whose id equals the format code;
otherwise none.  It returns none when the stream or its media descriptor is
absent. -/
theorem stream_get_format_order (packet_rtp_standard_codec : Nat → Option PacketRtpEncoding)
    (stream : rtp_stream_t) (media : PacketSdpMedia) (hmedia : stream.media = some media) :
    (∀ encoding, packet_rtp_standard_codec stream.fmtcode = some encoding →
      stream_get_format packet_rtp_standard_codec (some stream) = some encoding.format) ∧
    (packet_rtp_standard_codec stream.fmtcode = none →
      stream_get_format packet_rtp_standard_codec (some stream) =
        (media.formats.find? (fun f => f.id == stream.fmtcode)).map (fun f => f.alias_)) ∧
    (packet_rtp_standard_codec stream.fmtcode = none →
      (∀ f ∈ media.formats, f.id ≠ stream.fmtcode) →
      stream_get_format packet_rtp_standard_codec (some stream) = none) ∧
    stream_get_format packet_rtp_standard_codec none = none ∧
    stream_get_format packet_rtp_standard_codec (some { stream with media := none }) = none := by
  refine ⟨?_, ?_, ?_, rfl, rfl⟩
  · intro encoding henc
    simp [stream_get_format, hmedia, henc]
  · intro hnone
    simp [stream_get_format, hmedia, hnone, stream_get_format_loop_eq]
  · intro hnone hall
    simp only [stream_get_format, hmedia, hnone, stream_get_format_loop_eq, Option.map_eq_none']
    rw [List.find?_eq_none]
    intro f hf
    simpa using hall f hf

/-- Instance of C14: with the table 0 = PCMU, 8 = PCMA and a format list
offering 8 as G711A and 101 twice, code 8 gives PCMA, code 101 gives the first
alias for 101, code 96 gives none. -/
theorem stream_get_format_order_witness :
    stream_get_format sampleCodecs
      (some { sampleStream addrB addrA 8 3 with media := some sampleMedia }) = some "PCMA" ∧
    stream_get_format sampleCodecs
      (some { sampleStream addrB addrA 101 3 with media := some sampleMedia })
      = some "telephone-event" ∧
    stream_get_format sampleCodecs
      (some { sampleStream addrB addrA 96 3 with media := some sampleMedia }) = none :=
  ⟨(stream_get_format_order sampleCodecs
      { sampleStream addrB addrA 8 3 with media := some sampleMedia } sampleMedia rfl).1
      ⟨8, "PCMA"⟩ rfl,
   by decide, by decide⟩

/-! ## Creation and completeness -/

/-- Claim C15: when the allocation succeeds, `stream_create` returns a stream
whose kind is the type of the descriptor, whose media is the descriptor and
whose destination is the address of the descriptor, with source unset, format
code unset (0) and packet count 0, so that `stream_is_complete` is false for
it; when the allocation fails it returns none. -/
theorem stream_create_fields (media : PacketSdpMedia) :
    (∃ stream, stream_create true media = some stream ∧
      stream.type = media.type ∧ stream.media = some media ∧ stream.dst = media.address ∧
      stream.src = ⟨"", 0⟩ ∧ stream.fmtcode = 0 ∧ stream.pktcnt = 0 ∧
      stream_is_complete stream = 0) ∧
    stream_create false media = none :=
  ⟨⟨_, rfl, rfl, rfl, rfl, rfl, rfl, rfl, rfl⟩, rfl⟩

/-- Claim C16: `stream_is_complete` is true exactly when the packet count is
not 0, independently of the source: a stream with packet count 0 is still
incomplete after `stream_complete`, and a fresh stream to which
`stream_add_packet` is applied once, without `stream_complete`, is
complete. -/
theorem stream_is_complete_iff (s : rtp_stream_t) (src : Address) (p : packet_t) (now : Int) :
    (stream_is_complete s ≠ 0 ↔ s.pktcnt ≠ 0) ∧
    (stream_is_complete s = 1 ∨ stream_is_complete s = 0) ∧
    stream_is_complete (stream_complete s src) = stream_is_complete s ∧
    (s.pktcnt = 0 → stream_is_complete (stream_complete s src) = 0) ∧
    (s.pktcnt = 0 → stream_is_complete (stream_add_packet s p now) = 1 ∧
      (stream_add_packet s p now).src = s.src) ∧
    (∀ media fresh, stream_create true media = some fresh →
      stream_is_complete (stream_add_packet fresh p now) = 1 ∧
      (stream_add_packet fresh p now).src = ⟨"", 0⟩) := by
  refine ⟨?_, ?_, rfl, ?_, ?_, ?_⟩
  · by_cases h : s.pktcnt = 0 <;> simp [stream_is_complete, h]
  · by_cases h : s.pktcnt = 0 <;> simp [stream_is_complete, h]
  · intro h
    simp [stream_is_complete, stream_complete, h]
  · intro h
    simp [stream_is_complete, stream_add_packet, h]
  · intro media fresh hfresh
    simp only [stream_create, sng_malloc, if_true, Option.some.injEq] at hfresh
    subst hfresh
    simp [stream_is_complete, stream_add_packet, zero_stream]

/-! ## Soundness of the searches -/

theorem rtp_find_stream_format_eq_spec (calls : List sip_call_t) (src dst : Address)
    (format : Nat) :
    rtp_find_stream_format calls src dst format =
      rtp_find_stream_format_spec calls src dst format := by
  rw [rtp_find_stream_format, rtp_find_stream_format_calls_spec]
  simp only [scan_spec, rtp_find_stream_format_spec]
  cases ((scan_order calls).filter (fun e => is_rtp e.2)).find?
      (fun e => immediate_match src dst format e.2) with
  | some e => rfl
  | none => simp

theorem deref_eq_some_iff (calls : List sip_call_t) (r : StreamRef) (s : rtp_stream_t) :
    StreamRef.deref calls r = some s ↔
      ∃ c, calls[r.call]? = some c ∧ c.streams[r.stream]? = some s := by
  unfold StreamRef.deref
  cases hc : calls[r.call]? with
  | none => simp
  | some c => simp

/-- Claim C17: a stream returned by `rtp_find_stream_format` is a stream of a
call of the store, has kind RTP, has destination `dst`, and is incomplete or
has source `src`; so a stream of another kind is never returned. -/
theorem rtp_find_stream_format_sound (calls : List sip_call_t) (src dst : Address)
    (format : Nat) (r : StreamRef)
    (h : rtp_find_stream_format calls src dst format = some r) :
    ∃ c s, calls[r.call]? = some c ∧ c.streams[r.stream]? = some s ∧
      s.type = PacketProtoId.PACKET_RTP ∧ s.dst = dst ∧ (s.pktcnt = 0 ∨ s.src = src) := by
  rw [rtp_find_stream_format_eq_spec] at h
  unfold rtp_find_stream_format_spec at h
  have key : ∃ e ∈ scan_order calls, e.1 = r ∧ is_rtp e.2 = true ∧
      (immediate_match src dst format e.2 = true ∨ fallback_match src dst e.2 = true) := by
    cases hfind : ((scan_order calls).filter (fun e => is_rtp e.2)).find?
        (fun e => immediate_match src dst format e.2) with
    | some e =>
      rw [hfind] at h
      simp only [Option.some.injEq] at h
      have hmem := List.mem_filter.mp (List.mem_of_find?_eq_some hfind)
      have himm : immediate_match src dst format e.2 = true :=
        List.find?_some
          (p := fun (e : StreamRef × rtp_stream_t) => immediate_match src dst format e.2) hfind
      exact ⟨e, hmem.1, h, hmem.2, Or.inl himm⟩
    | none =>
      rw [hfind] at h
      simp only [Option.map_eq_some'] at h
      obtain ⟨e, hlast, he⟩ := h
      obtain ⟨ys, hys⟩ := List.getLast?_eq_some_iff.mp hlast
      have hmem : e ∈ ((scan_order calls).filter (fun e => is_rtp e.2)).filter
          (fun e => fallback_match src dst e.2) := by
        rw [hys]
        simp
      have h1 := List.mem_filter.mp hmem
      have h2 := List.mem_filter.mp h1.1
      exact ⟨e, h2.1, he, h2.2, Or.inr h1.2⟩
  obtain ⟨⟨r2, s⟩, hmem, hr, hrtp, hmatch⟩ := key
  simp only at hr hrtp hmatch
  subst hr
  obtain ⟨c, hc, hs⟩ := (deref_eq_some_iff calls r2 s).mp ((mem_scan_order_iff calls r2 s).mp hmem)
  refine ⟨c, s, hc, hs, ?_, ?_, ?_⟩
  · simpa [is_rtp] using hrtp
  · rcases hmatch with hm | hm
    · simp only [immediate_match, Bool.or_eq_true, Bool.and_eq_true, decide_eq_true_eq] at hm
      rcases hm with hm | hm
      · exact hm.2
      · exact hm.1.2
    · simp only [fallback_match, Bool.and_eq_true, decide_eq_true_eq] at hm
      exact hm.2
  · rcases hmatch with hm | hm
    · simp only [immediate_match, Bool.or_eq_true, Bool.and_eq_true, decide_eq_true_eq] at hm
      rcases hm with hm | hm
      · exact Or.inl hm.1
      · exact Or.inr hm.1.1.2
    · simp only [fallback_match, Bool.and_eq_true, decide_eq_true_eq] at hm
      exact Or.inr hm.1.2

/-- Instance of C17: the stream returned in `storeExactLast`; and a fresh
RTCP stream towards the destination is not returned. -/
theorem rtp_find_stream_format_sound_witness :
    rtp_find_stream_format storeExactLast addrB addrA 8 = some ⟨0, 0⟩ ∧
    (∃ c s, storeExactLast[0]? = some c ∧ c.streams[0]? = some s ∧
      s.type = PacketProtoId.PACKET_RTP ∧ s.dst = addrA ∧ (s.pktcnt = 0 ∨ s.src = addrB)) ∧
    rtp_find_stream_format storeRtcpOnly addrB addrA 8 = none :=
  ⟨by decide,
   rtp_find_stream_format_sound storeExactLast addrB addrA 8 ⟨0, 0⟩ (by decide),
   by decide⟩

theorem isNewest_getElem {α : Type} (p : α → Prop) (l : List α) (i : Nat)
    (h : IsNewest p l i) : ∃ x, l[i]? = some x ∧ p x ∧ x ∈ l := by
  obtain ⟨pre, x, post, rfl, rfl, hx, -⟩ := h
  refine ⟨x, ?_, hx, by simp⟩
  rw [List.getElem?_append_right (le_refl _)]
  simp

theorem first_loop_pred_iff (src dst : Address) (s : rtp_stream_t) :
    (addressport_equals dst s.dst && (decide (src.port = 0) || decide (s.pktcnt = 0))) = true ↔
      (s.dst = dst ∧ (src.port = 0 ∨ s.pktcnt = 0)) := by
  simp only [Bool.and_eq_true, addressport_equals_iff, Bool.or_eq_true, decide_eq_true_eq]
  constructor
  · rintro ⟨h1, h2⟩
    exact ⟨h1.symm, h2⟩
  · rintro ⟨h1, h2⟩
    exact ⟨h1.symm, h2⟩

/-- Claim C18: a stream returned by `rtp_find_call_stream` is a stream of the
call with destination `dst`; when the source port is not 0 and no incomplete
stream of the call has destination `dst`, so that the result comes from the
exact search, the returned stream has a packet count other than 0 and source
`src`.  The exact search itself does not look at the packet count: it returns
a stream with the two addresses whatever its packet count. -/
theorem rtp_find_call_stream_sound (call : sip_call_t) (src dst : Address) (i : Nat)
    (h : rtp_find_call_stream call src dst = some i) :
    (∃ s, call.streams[i]? = some s ∧ s.dst = dst ∧
      (src.port ≠ 0 → (∀ t ∈ call.streams, ¬ (t.dst = dst ∧ t.pktcnt = 0)) →
        s.pktcnt ≠ 0 ∧ s.src = src)) ∧
    (∀ t : rtp_stream_t, t.src = src → t.dst = dst →
      rtp_find_call_exact_stream ⟨[t]⟩ src dst = some 0) := by
  constructor
  · rw [rtp_find_call_stream_unfold] at h
    cases hscan : scanNewest (fun s => addressport_equals dst s.dst &&
        (decide (src.port = 0) || decide (s.pktcnt = 0))) call.streams.reverse with
    | some it =>
      rw [hscan] at h
      simp only [Option.some.injEq] at h
      subst h
      obtain ⟨x, hx, hp, hmem⟩ := isNewest_getElem _ _ _
        ((scanNewest_some _ _ (first_loop_pred_iff src dst) call.streams it).mp hscan)
      refine ⟨x, hx, hp.1, ?_⟩
      intro hport hno
      rcases hp.2 with h0 | h0
      · exact absurd h0 hport
      · exact absurd ⟨hp.1, h0⟩ (hno x hmem)
    | none =>
      rw [hscan] at h
      by_cases hport : src.port = 0
      · simp [hport] at h
      · simp only [ne_eq, hport, not_false_eq_true, if_true] at h
        obtain ⟨x, hx, hp, hmem⟩ := isNewest_getElem _ _ _
          ((scanNewest_some _ _ (exact_pred_iff src dst) call.streams i).mp h)
        refine ⟨x, hx, hp.2, ?_⟩
        intro _ hno
        exact ⟨fun h0 => hno x hmem ⟨hp.2, h0⟩, hp.1⟩
  · intro t hs hd
    simp [rtp_find_call_exact_stream, rtp_find_call_exact_stream_loop, hs, hd,
      addressport_equals_self]

/-- Instance of C18: the call holds one complete stream from B:6000 to A:5000
and the packet comes from B:6000. -/
theorem rtp_find_call_stream_sound_witness :
    rtp_find_call_stream ⟨[sampleStream addrB addrA 8 3]⟩ addrB addrA = some 0 ∧
    (∃ s, [sampleStream addrB addrA 8 3][0]? = some s ∧ s.dst = addrA ∧
      (addrB.port ≠ 0 →
        (∀ t ∈ [sampleStream addrB addrA 8 3], ¬ (t.dst = addrA ∧ t.pktcnt = 0)) →
        s.pktcnt ≠ 0 ∧ s.src = addrB)) :=
  ⟨by decide,
   (rtp_find_call_stream_sound ⟨[sampleStream addrB addrA 8 3]⟩ addrB addrA 0 (by decide)).1⟩

/-! ## The two searches over the store -/

/-- Claim C19: the two searches over the store can disagree.  For one call
holding, in creation order, an incomplete RTP stream S1 and a complete RTP
stream S2 with the same destination, S2 with source `src` (port not 0) and
format code `f`, `rtp_find_stream_format` returns S2 and `rtp_find_stream`
returns S1. -/
theorem searches_disagree (S1 S2 : rtp_stream_t) (src dst : Address) (f : Nat)
    (_h1t : S1.type = PacketProtoId.PACKET_RTP) (h1c : S1.pktcnt = 0) (h1d : S1.dst = dst)
    (h2t : S2.type = PacketProtoId.PACKET_RTP) (h2c : S2.pktcnt ≠ 0) (h2d : S2.dst = dst)
    (h2s : S2.src = src) (h2f : S2.fmtcode = f) (hport : src.port ≠ 0) :
    rtp_find_stream_format [⟨[S1, S2]⟩] src dst f = some ⟨0, 1⟩ ∧
    rtp_find_stream [⟨[S1, S2]⟩] src dst = some ⟨0, 0⟩ ∧
    StreamRef.deref [⟨[S1, S2]⟩] ⟨0, 1⟩ = some S2 ∧
    StreamRef.deref [⟨[S1, S2]⟩] ⟨0, 0⟩ = some S1 ∧
    rtp_find_stream [⟨[S1, S2]⟩] src dst ≠ rtp_find_stream_format [⟨[S1, S2]⟩] src dst f := by
  have hformat : rtp_find_stream_format [⟨[S1, S2]⟩] src dst f = some ⟨0, 1⟩ := by
    simp [rtp_find_stream_format, rtp_find_stream_format_calls, rtp_find_stream_format_streams,
      stream_is_complete, h2t, h2d, h2s, h2f, h2c, addressport_equals_self]
  have hplain : rtp_find_stream [⟨[S1, S2]⟩] src dst = some ⟨0, 0⟩ := by
    simp [rtp_find_stream, rtp_find_stream_loop, rtp_find_call_stream,
      rtp_find_call_stream_loop, h1d, h1c, h2d, h2c, hport, addressport_equals_self]
  refine ⟨hformat, hplain, rfl, rfl, ?_⟩
  rw [hformat, hplain]
  decide

/-- Instance of C19: S1 fresh towards A:5000, S2 from B:6000 to A:5000 with
format 8. -/
theorem searches_disagree_witness :
    rtp_find_stream_format [⟨[sampleIncomplete addrA, sampleStream addrB addrA 8 3]⟩]
      addrB addrA 8 = some ⟨0, 1⟩ ∧
    rtp_find_stream [⟨[sampleIncomplete addrA, sampleStream addrB addrA 8 3]⟩]
      addrB addrA = some ⟨0, 0⟩ :=
  ⟨(searches_disagree (sampleIncomplete addrA) (sampleStream addrB addrA 8 3) addrB addrA 8
      rfl rfl rfl rfl (by decide) rfl rfl rfl (by decide)).1,
   (searches_disagree (sampleIncomplete addrA) (sampleStream addrB addrA 8 3) addrB addrA 8
      rfl rfl rfl rfl (by decide) rfl rfl rfl (by decide)).2.1⟩

/-! ## Dialog button padding -/

theorem MAX_eq_max (a b : Int) : MAX a b = max a b := by
  unfold MAX
  split_ifs with h
  · exact (max_eq_left (le_of_lt h)).symm
  · exact (max_eq_right (not_lt.mp h)).symm

theorem foldl_MAX_eq (text_len : String → Int) (msg_lines : List String) (a : Int)
    (ha : 0 ≤ a) :
    msg_lines.foldl (fun width line => MAX width (text_len line)) a =
      max a (longest_line text_len msg_lines) := by
  induction msg_lines generalizing a with
  | nil => simp [longest_line, ha]
  | cons l rest ih =>
    have hstep : 0 ≤ MAX a (text_len l) := by
      rw [MAX_eq_max]
      exact le_trans ha (le_max_left _ _)
    rw [List.foldl_cons, ih _ hstep, MAX_eq_max]
    simp only [longest_line, List.map_cons, List.foldr_cons]
    exact max_assoc _ _ _

theorem longest_line_nonneg (text_len : String → Int) (msg_lines : List String) :
    0 ≤ longest_line text_len msg_lines := by
  unfold longest_line
  induction msg_lines with
  | nil => simp
  | cons x xs ih => exact le_trans ih (le_max_right _ _)

theorem sng_dialog_message_width_eq (text_len : String → Int) (dialog : SngDialog)
    (msg_lines : List String) :
    sng_dialog_message_width text_len dialog msg_lines = dialog_w text_len dialog msg_lines := by
  unfold sng_dialog_message_width dialog_w
  simp only [foldl_MAX_eq text_len msg_lines 0 (le_refl _),
    max_eq_right (longest_line_nonneg text_len msg_lines)]
  split_ifs <;> simp

theorem tdiv_two_nonneg_iff (w : Int) : 0 ≤ Int.tdiv (w - 25) 2 ↔ 24 ≤ w := by
  by_cases h : 0 ≤ w - 25
  · rw [Int.tdiv_eq_ediv h (by norm_num)]
    omega
  · have hneg : Int.tdiv (w - 25) 2 = -((25 - w) / 2) := by
      have hw : w - 25 = -(25 - w) := by ring
      rw [hw, Int.neg_tdiv, Int.tdiv_eq_ediv (by omega) (by norm_num)]
    rw [hneg]
    omega

/-- Claim C20: for dialogs with YES_NO or OK_CANCEL buttons the left and right
padding of the button box is (w - 25) / 2 with truncating division, where w is
the length of the longest message line plus 5 when the type is not
`SNG_DIALOG_OTHER`, taken before the dialog width is clamped to the minimum
width; the padding is non-negative exactly when w is at least 24, negative
below, and does not depend on the minimum width. -/
theorem dialog_button_padding (SNG_DIALOG_MIN_HEIGHT SNG_DIALOG_MIN_WIDTH : Int)
    (text_len : String → Int) (old : SngBoxPadding) (dialog : SngDialog)
    (msg_lines : List String)
    (hbuttons : dialog.buttons = SngDialogButtons.SNG_BUTTONS_YES_NO ∨
      dialog.buttons = SngDialogButtons.SNG_BUTTONS_OK_CANCEL) :
    (sng_dialog_constructed SNG_DIALOG_MIN_HEIGHT SNG_DIALOG_MIN_WIDTH text_len old dialog
        msg_lines).box_buttons_padding.left
      = Int.tdiv (dialog_w text_len dialog msg_lines - 25) 2 ∧
    (sng_dialog_constructed SNG_DIALOG_MIN_HEIGHT SNG_DIALOG_MIN_WIDTH text_len old dialog
        msg_lines).box_buttons_padding.right
      = Int.tdiv (dialog_w text_len dialog msg_lines - 25) 2 ∧
    (sng_dialog_constructed SNG_DIALOG_MIN_HEIGHT SNG_DIALOG_MIN_WIDTH text_len old dialog
        msg_lines).width
      = max (dialog_w text_len dialog msg_lines) SNG_DIALOG_MIN_WIDTH ∧
    (0 ≤ (sng_dialog_constructed SNG_DIALOG_MIN_HEIGHT SNG_DIALOG_MIN_WIDTH text_len old dialog
        msg_lines).box_buttons_padding.left
      ↔ 24 ≤ dialog_w text_len dialog msg_lines) ∧
    ((sng_dialog_constructed SNG_DIALOG_MIN_HEIGHT SNG_DIALOG_MIN_WIDTH text_len old dialog
        msg_lines).box_buttons_padding.left < 0
      ↔ dialog_w text_len dialog msg_lines < 24) ∧
    (∀ other_min_width : Int,
      (sng_dialog_constructed SNG_DIALOG_MIN_HEIGHT other_min_width text_len old dialog
        msg_lines).box_buttons_padding
      = (sng_dialog_constructed SNG_DIALOG_MIN_HEIGHT SNG_DIALOG_MIN_WIDTH text_len old dialog
        msg_lines).box_buttons_padding) := by
  have hleft : (sng_dialog_constructed SNG_DIALOG_MIN_HEIGHT SNG_DIALOG_MIN_WIDTH text_len old
      dialog msg_lines).box_buttons_padding.left
      = Int.tdiv (dialog_w text_len dialog msg_lines - 25) 2 := by
    have h25 : ∀ w : Int, w - 24 - 1 = w - 25 := fun w => by ring
    rcases hbuttons with h | h <;>
      simp [sng_dialog_constructed, h, sng_dialog_message_width_eq, h25]
  have hright : (sng_dialog_constructed SNG_DIALOG_MIN_HEIGHT SNG_DIALOG_MIN_WIDTH text_len old
      dialog msg_lines).box_buttons_padding.right
      = Int.tdiv (dialog_w text_len dialog msg_lines - 25) 2 := by
    have h25 : ∀ w : Int, w - 24 - 1 = w - 25 := fun w => by ring
    rcases hbuttons with h | h <;>
      simp [sng_dialog_constructed, h, sng_dialog_message_width_eq, h25]
  refine ⟨hleft, hright, ?_, ?_, ?_, ?_⟩
  · simp [sng_dialog_constructed, sng_dialog_message_width_eq, MAX_eq_max]
  · rw [hleft]
    exact tdiv_two_nonneg_iff _
  · rw [hleft, ← not_le, tdiv_two_nonneg_iff]
    omega
  · intro other_min_width
    rfl

/-- Instance of C20: a yes/no dialog with the message "Delete?" and a minimum
width of 40 has w = 12, width 40 and a button padding of -6. -/
theorem dialog_button_padding_witness :
    dialog_w sampleTextLen sampleDialog ["Delete?"] = 12 ∧
    (sng_dialog_constructed 5 40 sampleTextLen ⟨0, 0, 0, 0⟩ sampleDialog
      ["Delete?"]).width = 40 ∧
    (sng_dialog_constructed 5 40 sampleTextLen ⟨0, 0, 0, 0⟩ sampleDialog
      ["Delete?"]).box_buttons_padding.left = -6 ∧
    (sng_dialog_constructed 5 40 sampleTextLen ⟨0, 0, 0, 0⟩ sampleDialog
      ["Delete?"]).box_buttons_padding.left
      = Int.tdiv (dialog_w sampleTextLen sampleDialog ["Delete?"] - 25) 2 :=
  ⟨by decide, by decide, by decide,
   (dialog_button_padding 5 40 sampleTextLen ⟨0, 0, 0, 0⟩ sampleDialog ["Delete?"]
      (Or.inl rfl)).1⟩

/-! ## The version test and the range test -/

theorem RTP_VERSION_eq_iff (b : Nat) :
    RTP_VERSION b = RTP_VERSION_RFC1889 ↔ (b > 127 ∧ b < 192) := by
  unfold RTP_VERSION RTP_VERSION_RFC1889
  rw [Nat.shiftRight_eq_div_pow]
  omega

/-- Claim C21: in `data_is_rtcp` the version test and the range test on byte 0
are equivalent: for every byte value b (indeed every natural number), the top
two bits of b are 2, that is b >> 6 == 2, exactly when 127 < b < 192; so the
classifier with the version test removed and the classifier with the range
test removed return what the original returns, on every input. -/
theorem version_test_iff_range_test (b : Nat) (RTCP_HDR_LENGTH : Nat) (data : List Nat)
    (len : Nat) :
    (b >>> 6 = 2 ↔ (127 < b ∧ b < 192)) ∧
    (RTP_VERSION b = RTP_VERSION_RFC1889 ↔ (127 < b ∧ b < 192)) ∧
    data_is_rtcp_without_version RTCP_HDR_LENGTH data len =
      data_is_rtcp RTCP_HDR_LENGTH data len ∧
    data_is_rtcp_without_range RTCP_HDR_LENGTH data len =
      data_is_rtcp RTCP_HDR_LENGTH data len := by
  refine ⟨RTP_VERSION_eq_iff b, RTP_VERSION_eq_iff b, ?_, ?_⟩
  · unfold data_is_rtcp_without_version data_is_rtcp
    split_ifs with hlen
    · cases h0 : data[0]? with
      | none => rfl
      | some d0 =>
        simp only []
        by_cases hv : RTP_VERSION d0 = RTP_VERSION_RFC1889
        · simp only [hv, if_true]
        · have hr : ¬ (d0 > 127 ∧ d0 < 192) := fun h => hv ((RTP_VERSION_eq_iff d0).mpr h)
          simp only [hv, hr, if_false]
    · rfl
  · unfold data_is_rtcp_without_range data_is_rtcp
    split_ifs with hlen
    · cases h0 : data[0]? with
      | none => rfl
      | some d0 =>
        simp only []
        by_cases hv : RTP_VERSION d0 = RTP_VERSION_RFC1889
        · have hr : d0 > 127 ∧ d0 < 192 := (RTP_VERSION_eq_iff d0).mp hv
          simp only [hv, hr, and_self, if_true]
        · simp only [hv, if_false]
    · rfl

end Sngrep
